import Mathlib

/-!
# dcf77pi-ntpsec: shared-memory publisher, decode classifier, civil-warning decoder

A shallow embedding of `dcf77pi-ntpsec.c` (the NTPSec SHM publisher and the
`display_time` callback) and of `decode_alarm.c` (the civil warning decoder and
its label renderer), followed by the properties proved about them.

Conventions of the embedding:
* a C `int` is an `Int`; arithmetic that can leave the 32-bit range is wrapped
  with `wrap_int`; a C `unsigned` is a `Nat` reduced modulo `2^32`;
* `time_t` and `suseconds_t` values are `Int`;
* the process-wide statics `shm_unit`, `shmid`, `shm` and the content of the
  shared memory segment are the fields of `State`;
* calls into libc and the OS (`mktime`, `gettimeofday`, `shmget`, `shmat`) are
  parameters of the functions that make them;
* what another process can observe of the stores of `update_shm` is stated for
  every store order that keeps the stores to the `volatile` members `valid` and
  `count` in program order; the other members are not `volatile` and the source
  has no barrier.
-/

namespace Dcf77

/-! ## Machine integers -/

/-- Two's-complement wrap of a value into the range of a 32-bit C `int`. -/
def wrap_int (x : Int) : Int := (x + 2147483648) % 4294967296 - 2147483648

/-- Conversion of a value to a 32-bit C `unsigned`. -/
def wrap_unsigned (x : Int) : Nat := (x % 4294967296).toNat

/-! ## Data model of `dcf77pi-ntpsec.c` -/

/-- The record `struct shmTime` shared with NTPSec. -/
structure shmTime where
  mode : Int
  count : Int
  clockTimeStampSec : Int
  clockTimeStampUSec : Int
  receiveTimeStampSec : Int
  receiveTimeStampUSec : Int
  leap : Int
  precision : Int
  nsamples : Int
  valid : Int
  clockTimeStampNSec : Nat
  receiveTimeStampNSec : Nat
  dummy : List Int
deriving DecidableEq, Repr

/-- The libc record `struct tm`. -/
structure tm where
  tm_sec : Int
  tm_min : Int
  tm_hour : Int
  tm_mday : Int
  tm_mon : Int
  tm_year : Int
  tm_wday : Int
  tm_yday : Int
  tm_isdst : Int
deriving DecidableEq, Repr

/-- The libc record `struct timeval`. -/
structure timeval where
  tv_sec : Int
  tv_usec : Int
deriving DecidableEq, Repr

/-- The statics of `dcf77pi-ntpsec.c` together with the memory they point to:
`shm` tells whether the pointer `shm` is non-NULL, `seg` is the content of the
shared memory segment it refers to. -/
structure State where
  shm_unit : Int
  shmid : Int
  shm : Bool
  seg : shmTime
deriving DecidableEq, Repr

/-- What `update_shm` obtains from libc during one call: the function `mktime`
(its result for the translated time) and the outcome of `gettimeofday` (return
value and the `struct timeval` it filled in). -/
structure UpdateEnv where
  mktime : tm → Int
  gettimeofday : Int × timeval

/-- What `init_shm` obtains from the OS: `shmget` maps the key to a segment id
or `-1`; `shmat` succeeds or returns `(void *)-1`; `errno_shmget` and
`errno_shmat` are the values `return errno` reads after a failing `shmget`,
respectively `shmat`, and the `log_error` call that follows it. -/
structure ShmOS where
  shmget : Int → Int
  shmat_ok : Bool
  errno_shmget : Int
  errno_shmat : Int

/-- One line handed to the logging helpers, or a call of `update_shm`; `fmt` is
the format string of the source, `args` its string arguments (numeric
arguments are not rendered). -/
inductive Event where
  | log_info (fmt : String) (args : List String)
  | log_error (fmt : String) (args : List String)
  | call_update_shm (time : tm) (leap_second : Int)
deriving DecidableEq, Repr

/-! ## `init_shm` -/

/-- The effect of `memset(shm, 0, sizeof(struct shmTime))`. -/
def memset_zero : shmTime :=
  { mode := 0, count := 0, clockTimeStampSec := 0, clockTimeStampUSec := 0,
    receiveTimeStampSec := 0, receiveTimeStampUSec := 0, leap := 0, precision := 0,
    nsamples := 0, valid := 0, clockTimeStampNSec := 0, receiveTimeStampNSec := 0,
    dummy := List.replicate 8 0 }

/-- The function `init_shm`: returns the status and the new statics/segment. -/
def init_shm (os : ShmOS) (st : State) : Int × State :=
  let key := 0x4e545030 + st.shm_unit
  let st := { st with shmid := os.shmget key }
  if st.shmid = -1 then
    (os.errno_shmget, st)
  else if !os.shmat_ok then
    (os.errno_shmat, { st with shm := false })
  else
    let seg := memset_zero
    let seg := { seg with mode := 1 }
    let seg := { seg with precision := -10 }
    let seg := { seg with nsamples := 3 }
    let seg := { seg with valid := 0 }
    (0, { st with shm := true, seg := seg })

/-! ## `update_shm` -/

/-- The translation of the DCF77 time structure to the standard `struct tm`
(lines 173-181 of `update_shm`). -/
def std_time_of (dcf_time : tm) : tm :=
  { tm_sec := 0,
    tm_min := dcf_time.tm_min,
    tm_hour := dcf_time.tm_hour,
    tm_mday := dcf_time.tm_mday,
    tm_mon := wrap_int (dcf_time.tm_mon - 1),
    tm_year := wrap_int (dcf_time.tm_year - 1900),
    tm_wday := dcf_time.tm_wday,
    tm_yday := 0,
    tm_isdst := dcf_time.tm_isdst }

/-- The stores of the mode 1 protocol, one entry per assignment to `*shm`, in
program order (lines 197-216 of `update_shm`), numbered 0 to 10. Program order
fixes the content of the segment after the call; the order in which another
process sees the stores is fixed only among the stores to the `volatile` members
(see `admissible_order`). -/
def update_shm_writes (dcf_unix_time : Int) (tv : timeval) (leap_second : Int) :
    List (shmTime → shmTime) :=
  [ fun s => { s with valid := 0 },
    fun s => { s with count := wrap_int (s.count + 1) },
    fun s => { s with clockTimeStampSec := dcf_unix_time },
    fun s => { s with clockTimeStampUSec := 0 },
    fun s => { s with clockTimeStampNSec := 0 },
    fun s => { s with receiveTimeStampSec := tv.tv_sec },
    fun s => { s with receiveTimeStampUSec := wrap_int tv.tv_usec },
    fun s => { s with receiveTimeStampNSec := wrap_unsigned (tv.tv_usec * 1000) },
    fun s => { s with leap := if leap_second ≠ 0 then 1 else 0 },
    fun s => { s with count := wrap_int (s.count + 1) },
    fun s => { s with valid := 1 } ]

/-- The stores one call of `update_shm` performs on the segment: none when
`shm` is NULL, when `mktime` returns `-1` or when `gettimeofday` fails. -/
def update_shm_stores (env : UpdateEnv) (st : State) (dcf_time : tm) (leap_second : Int) :
    List (shmTime → shmTime) :=
  if !st.shm then []
  else
    let std_time := std_time_of dcf_time
    let dcf_unix_time := env.mktime std_time
    if dcf_unix_time = -1 then []
    else if env.gettimeofday.1 ≠ 0 then []
    else update_shm_writes dcf_unix_time env.gettimeofday.2 leap_second

/-- The segment contents after each store of a list of stores, in order. -/
def trace_stores : List (shmTime → shmTime) → shmTime → List shmTime
  | [], _ => []
  | f :: fs, s => f s :: trace_stores fs (f s)

/-- The segment content after all stores of a list have been performed. -/
def run_stores : List (shmTime → shmTime) → shmTime → shmTime
  | [], s => s
  | f :: fs, s => run_stores fs (f s)

/-- The lines `update_shm` logs. -/
def update_shm_log (env : UpdateEnv) (st : State) (dcf_time : tm) : List Event :=
  if !st.shm then []
  else if env.mktime (std_time_of dcf_time) = -1 then
    [Event.log_error "mktime() failed for DCF77 time" []]
  else if env.gettimeofday.1 ≠ 0 then
    [Event.log_error "gettimeofday() failed: %s" []]
  else []

/-- The function `update_shm`: the state after the call. -/
def update_shm (env : UpdateEnv) (st : State) (dcf_time : tm) (leap_second : Int) : State :=
  { st with seg := run_stores (update_shm_stores env st dcf_time leap_second) st.seg }

/-- One call of `update_shm` as the main loop issues it. -/
structure UpdateCall where
  env : UpdateEnv
  dcf_time : tm
  leap_second : Int

/-- For each store of `update_shm_writes`, whether it is to a member declared
`volatile` in `struct shmTime`: only `count` (line 47) and `valid` (line 55) are. -/
def update_shm_volatile : List Bool :=
  [true, true, false, false, false, false, false, false, false, true, true]

/-- Whether store number `k` of `update_shm_writes` is to a `volatile` member. -/
def volatile_store (k : Nat) : Bool := update_shm_volatile.getD k false

/-- The orders in which the compiled `update_shm` may perform its stores: each of
the 11 stores once, the stores to the `volatile` members `valid` and `count` in
program order (`valid = 0`, `count++`, `count++`, `valid = 1`). Lines 197-216
contain no barrier, so nothing orders the other stores with respect to them. -/
def admissible_order (order : List Nat) : Prop :=
  List.Perm order (List.range 11) ∧ order.filter volatile_store = [0, 1, 9, 10]

/-- Admissibility of a store order is decidable. -/
instance (order : List Nat) : Decidable (admissible_order order) := by
  unfold admissible_order; infer_instance

/-- The stores of a list `w` taken in the given order. -/
def reorder (w : List (shmTime → shmTime)) (order : List Nat) : List (shmTime → shmTime) :=
  order.map (fun k => w.getD k id)

/-- The stores one call of `update_shm` performs on the segment when the compiled
code performs the stores of lines 197-216 in the given order. -/
def update_shm_stores_in (order : List Nat) (env : UpdateEnv) (st : State) (dcf_time : tm)
    (leap_second : Int) : List (shmTime → shmTime) :=
  match update_shm_stores env st dcf_time leap_second with
  | [] => []
  | w :: ws => reorder (w :: ws) order

/-- The state after one call of `update_shm` performing its stores in the given
order. -/
def update_shm_in (order : List Nat) (env : UpdateEnv) (st : State) (dcf_time : tm)
    (leap_second : Int) : State :=
  { st with seg := run_stores (update_shm_stores_in order env st dcf_time leap_second) st.seg }

/-- Every segment content an observer can see while a sequence of `update_shm`
calls runs with the given store order: the content after each single store. -/
def observe_updates_in (order : List Nat) : List UpdateCall → State → List shmTime
  | [], _ => []
  | c :: cs, st =>
    trace_stores (update_shm_stores_in order c.env st c.dcf_time c.leap_second) st.seg ++
      observe_updates_in order cs (update_shm_in order c.env st c.dcf_time c.leap_second)

/-- The state after a sequence of `update_shm` calls with the given store order. -/
def run_updates_in (order : List Nat) : List UpdateCall → State → State
  | [], st => st
  | c :: cs, st =>
    run_updates_in order cs (update_shm_in order c.env st c.dcf_time c.leap_second)

/-- The segment contents right after each store to a `volatile` member, when the
stores of `w` are performed in the given order. -/
def trace_volatile (w : List (shmTime → shmTime)) : List Nat → shmTime → List shmTime
  | [], _ => []
  | k :: ks, s =>
    if volatile_store k then w.getD k id s :: trace_volatile w ks (w.getD k id s)
    else trace_volatile w ks (w.getD k id s)

/-! ## `display_time` -/

/-- Modelled from the spec: the header `decode_time.h` declaring this
enumeration is not among the sources. `emin_ok` is the only enumerator the code
names; `emin_other k` stands for any further enumerator (a minute of wrong
length). -/
inductive eDT_length where
  | emin_ok
  | emin_other (k : Nat)
deriving DecidableEq, Repr

/-- Modelled from the spec: per-field status (ok / parity-error / BCD-error),
declared in the header `decode_time.h`, which is not among the sources.
`eval_other k` stands for any further enumerator that header may declare. -/
inductive eDT_value where
  | eval_ok
  | eval_parity
  | eval_bcd
  | eval_other (k : Nat)
deriving DecidableEq, Repr

/-- Modelled from the spec: daylight status (normal / transitioning / error),
declared in the header `decode_time.h`, which is not among the sources.
`eDST_other k` stands for any further enumerator that header may declare. -/
inductive eDT_DST where
  | eDST_ok
  | eDST_jump
  | eDST_error
  | eDST_other (k : Nat)
deriving DecidableEq, Repr

/-- Modelled from the spec: the fields of `struct DT_result` (declared in the
header `decode_time.h`, not among the sources) that `display_time` reads. -/
structure DT_result where
  bit0_ok : Bool
  bit20_ok : Bool
  minute_length : eDT_length
  minute_status : eDT_value
  hour_status : eDT_value
  mday_status : eDT_value
  wday_status : eDT_value
  month_status : eDT_value
  year_status : eDT_value
  dst_status : eDT_DST
  dst_announce : Bool
  leap_announce : Bool
deriving DecidableEq, Repr

/-- The libc function `strcat` on the content of `error_msg`. -/
def strcat (dest src : String) : String := dest ++ src

/-- The two statements `strcat(error_msg, tag); has_error = true;` on the pair
`(has_error, error_msg)`. -/
def flag_error (st : Bool × String) (tag : String) : Bool × String :=
  (true, strcat st.2 tag)

/-- Lines 307-350 of `display_time`: the final values of `has_error` and
`error_msg`. -/
def display_time_check (dt : DT_result) : Bool × String :=
  let st : Bool × String := (false, "")
  let st := if dt.minute_length ≠ eDT_length.emin_ok then
      flag_error st "minute_length_error " else st
  let st := if !dt.bit0_ok then flag_error st "bit0_error " else st
  let st := if !dt.bit20_ok then flag_error st "bit20_error " else st
  let st := if dt.dst_status = eDT_DST.eDST_error then flag_error st "dst_error " else st
  let st := if dt.minute_status = eDT_value.eval_parity then
      flag_error st "minute_parity_error "
    else if dt.minute_status = eDT_value.eval_bcd then
      flag_error st "minute_bcd_error "
    else st
  let st := if dt.hour_status = eDT_value.eval_parity then
      flag_error st "hour_parity_error "
    else if dt.hour_status = eDT_value.eval_bcd then
      flag_error st "hour_bcd_error "
    else st
  let st := if dt.mday_status = eDT_value.eval_parity ∨ dt.wday_status = eDT_value.eval_parity ∨
      dt.month_status = eDT_value.eval_parity ∨ dt.year_status = eDT_value.eval_parity then
      flag_error st "date_parity_error " else st
  let st := if dt.mday_status = eDT_value.eval_bcd ∨ dt.wday_status = eDT_value.eval_bcd ∨
      dt.month_status = eDT_value.eval_bcd ∨ dt.year_status = eDT_value.eval_bcd then
      flag_error st "date_bcd_error " else st
  st

/-- The value of `has_error` at line 352. -/
def has_error (dt : DT_result) : Bool := (display_time_check dt).1

/-- The content of `error_msg` at line 352. -/
def error_msg (dt : DT_result) : String := (display_time_check dt).2

/-- The conversion of the `bool` member `leap_announce` to the `int` parameter
`leap_second`. -/
def int_of_bool (b : Bool) : Int := if b then 1 else 0

/-- The function `display_time`: the lines logged and calls made, in order, and
the state after the callback. -/
def display_time (env : UpdateEnv) (st : State) (dt : DT_result) (time : tm) :
    List Event × State :=
  if has_error dt then
    ([Event.log_error "DCF77 decode failed: %s" [error_msg dt],
      Event.log_error "Received: %s %04d-%02d-%02d %s %02d:%02d"
        [if time.tm_isdst = 1 then "summer" else if time.tm_isdst = 0 then "winter" else "?"]],
     st)
  else
    ([Event.log_info "DCF77 time: %s %04d-%02d-%02d %s %02d:%02d%s%s"
        [if time.tm_isdst = 1 then "summer" else if time.tm_isdst = 0 then "winter" else "UTC",
         if dt.dst_announce then " [DST change announced]" else "",
         if dt.leap_announce then " [leap second announced]" else ""],
      Event.call_update_shm time (int_of_bool dt.leap_announce)] ++
      update_shm_log env st time,
     update_shm env st time (int_of_bool dt.leap_announce))

/-! ## `decode_alarm.c` -/

/-- Modelled from the spec: one element of `region[2]` in `struct alm`
(declared in the header `decode_alarm.h`, not among the sources); the four
sub-codes are taken to be `unsigned`. -/
structure Region where
  r1 : Nat
  r2 : Nat
  r3 : Nat
  r4 : Nat
deriving DecidableEq, Repr

/-- Modelled from the spec: one element of `parity[2]` in `struct alm`
(declared in the header `decode_alarm.h`, not among the sources); the two
parity codes are taken to be `unsigned`. -/
structure Parity where
  ps : Nat
  pl : Nat
deriving DecidableEq, Repr

/-- Modelled from the spec: `struct alm` (declared in the header
`decode_alarm.h`, not among the sources), two regions and two parities. -/
structure alm where
  region : Fin 2 → Region
  parity : Fin 2 → Parity

/-- Arithmetic on C `unsigned` values: the result modulo `2^32`. -/
def u32 (x : Nat) : Nat := x % 4294967296

/-- The body of the loop of `decode_alarm` for one value of `i`; `civbuf k` is
the array element `civbuf[k]`. -/
def decode_alarm_body (civbuf : Nat → Nat) (i : Fin 2) (alarm : alm) : alm :=
  let r1 := u32 (civbuf (6 * i) + 2 * civbuf (1 + 6 * i) + 4 * civbuf (3 + 6 * i))
  let r2 := u32 (civbuf (12 + 14 * i) + 2 * civbuf (13 + 14 * i) + 4 * civbuf (14 + 14 * i))
  let r3 := u32 (civbuf (15 + 14 * i) + 2 * civbuf (16 + 14 * i) + 4 * civbuf (17 + 14 * i))
  let r4 := u32 (civbuf (19 + 14 * i) + 2 * civbuf (20 + 14 * i) + 4 * civbuf (21 + 14 * i) +
    8 * civbuf (23 + 14 * i))
  let ps := u32 (civbuf (2 + 6 * i) + 2 * civbuf (4 + 6 * i) + 4 * civbuf (5 + 6 * i))
  let pl := u32 (civbuf (18 + 14 * i) + 2 * civbuf (22 + 14 * i) + 4 * civbuf (24 + 14 * i) +
    8 * civbuf (25 + 14 * i))
  { region := Function.update alarm.region i { r1 := r1, r2 := r2, r3 := r3, r4 := r4 },
    parity := Function.update alarm.parity i { ps := ps, pl := pl } }

/-- The function `decode_alarm`: the loop runs for `i = 0` and `i = 1` on the
record `alarm` points to. -/
def decode_alarm (civbuf : Nat → Nat) (alarm : alm) : alm :=
  decode_alarm_body civbuf 1 (decode_alarm_body civbuf 0 alarm)

/-- The string constant `reg1n`. -/
def reg1n : String := "SWH, HH, NS, BR, MVP"

/-- The string constant `reg1m`. -/
def reg1m : String := "NRW, SA, BRA, B, TH, S"

/-- The string constant `reg1s`. -/
def reg1s : String := "RP, SAA, HS, BW, BYN, BYS"

/-- The size `sizeof(res)` of the static result buffer. -/
def sizeof_res : Nat := 256

/-- The assignment `buf[i] = c` on a character buffer. -/
def poke (buf : Nat → Char) (i : Nat) (c : Char) : Nat → Char :=
  fun j => if j = i then c else buf j

/-- Copy the characters of a list to `buf[pos]`, `buf[pos + 1]`, ... -/
def poke_list (buf : Nat → Char) (pos : Nat) : List Char → Nat → Char
  | [] => buf
  | c :: cs => poke_list (poke buf pos c) (pos + 1) cs

/-- The libc call `snprintf(res + pos, n, "%s", s)` (also used for a literal
format without conversions): at most `n - 1` characters of `s` are stored from
`res[pos]` on, followed by a terminating NUL; nothing is stored when `n = 0`.
The return value is the length of `s`. -/
def snprintf (res : Nat → Char) (pos n : Nat) (s : String) : (Nat → Char) × Nat :=
  if n = 0 then (res, s.length)
  else
    let out := s.data.take (n - 1)
    (poke (poke_list res pos out) (pos + out.length) (Char.ofNat 0), s.length)

/-- The C string stored in a buffer from index `i` on, reading at most `fuel`
characters. -/
def c_string (buf : Nat → Char) : Nat → Nat → List Char
  | 0, _ => []
  | fuel + 1, i => if buf i = Char.ofNat 0 then [] else buf i :: c_string buf fuel (i + 1)

/-- The function `get_region_name`; `res` is the content of the static buffer
before the call. The result is the string the returned pointer refers to. -/
def get_region_name (res : Nat → Char) (alarm : alm) : String :=
  let pos : Nat := 0
  if (alarm.region 0).r1 ≠ (alarm.region 1).r1 ∨ (alarm.parity 0).ps ≠ (alarm.parity 1).ps then
    "(inconsistent)"
  else
    let res := poke res 0 (Char.ofNat 0)
    let need_comma := false
    let (res, pos, need_comma) :=
      if (alarm.region 0).r1 &&& 1 = 1 then
        let w := snprintf res pos (sizeof_res - pos) reg1n
        (w.1, pos + w.2, true)
      else (res, pos, need_comma)
    let (res, pos, need_comma) :=
      if (alarm.region 0).r1 &&& 2 = 2 then
        let (res, pos) :=
          if need_comma ∧ pos < sizeof_res - 3 then
            let w := snprintf res pos (sizeof_res - pos) ", "
            (w.1, pos + w.2)
          else (res, pos)
        let (res, pos) :=
          if pos < sizeof_res then
            let w := snprintf res pos (sizeof_res - pos) reg1m
            (w.1, pos + w.2)
          else (res, pos)
        (res, pos, true)
      else (res, pos, need_comma)
    let res :=
      if (alarm.region 0).r1 &&& 4 = 4 then
        let (res, pos) :=
          if need_comma ∧ pos < sizeof_res - 3 then
            let w := snprintf res pos (sizeof_res - pos) ", "
            (w.1, pos + w.2)
          else (res, pos)
        if pos < sizeof_res then (snprintf res pos (sizeof_res - pos) reg1s).1 else res
      else res
    String.mk (c_string res sizeof_res 0)

/-! ## `cleanup_shm` and `main` -/

/-- The function `cleanup_shm`; `shmdt` is the return value of the libc call
`shmdt(shm)`, made only when `shm` is not NULL. The result is the lines logged
and the state after the call. -/
def cleanup_shm (shmdt : Int) (st : State) : List Event × State :=
  if st.shm then
    let seg := { st.seg with valid := 0 }
    let log := if shmdt = -1 then
        [Event.log_error "Failed to detach SHM segment: %s" []] else []
    (log ++ [Event.log_info "NTPSec SHM cleanup complete" []],
      { st with seg := seg, shm := false })
  else
    ([Event.log_info "NTPSec SHM cleanup complete" []], st)

/-- The constant `EX_NOINPUT` of the system header `sysexits.h`. -/
def EX_NOINPUT : Int := 66

/-- What `main` obtains from its surroundings: `config` is the outcome of
`json_object_from_file` (`none` for NULL) and, inside it, of looking up
`shm_unit` (`none` when the key is absent, otherwise the value returned by
`json_object_get_int`); `set_mode_live` is the return value of that call;
`minutes` are the calls of the callback `display_time` made by `mainloop`;
`shmdt` is the return value of the detach; `prior` is the content of the shared
memory segment before the program touches it. -/
structure MainEnv where
  config : Option (Option Int)
  set_mode_live : Int
  os : ShmOS
  minutes : List (UpdateEnv × DT_result × tm)
  shmdt : Int
  prior : shmTime

/-- The statics at program start: `shm_unit = 0`, `shm = NULL`, `shmid = -1`. -/
def startup (prior : shmTime) : State :=
  { shm_unit := 0, shmid := -1, shm := false, seg := prior }

/-- Lines 426-433 of `main`: the optional configuration field `shm_unit`. -/
def read_shm_unit (value : Option Int) (st : State) : State :=
  match value with
  | some v =>
    let st := { st with shm_unit := v }
    if st.shm_unit < 0 ∨ st.shm_unit > 3 then { st with shm_unit := 0 } else st
  | none => st

/-- Modelled from the spec: `mainloop` (declared in the header `mainloop.h`, not
among the sources) invokes the callback `display_time` once per decoded minute;
no other callback of `dcf77pi-ntpsec.c` touches the statics or the segment. -/
def mainloop (minutes : List (UpdateEnv × DT_result × tm)) (st : State) : State :=
  minutes.foldl (fun st m => (display_time m.1 st m.2.1 m.2.2).2) st

/-- The function `main`: the returned status and the final statics and segment
(log lines of `main` itself are not recorded). -/
def main (env : MainEnv) : Int × State :=
  let st := startup env.prior
  match env.config with
  | none => (EX_NOINPUT, st)
  | some value =>
    let st := read_shm_unit value st
    let res := env.set_mode_live
    if res ≠ 0 then (res, st)
    else
      let r := init_shm env.os st
      if r.1 ≠ 0 then (r.1, r.2)
      else
        let st := mainloop env.minutes r.2
        let st := (cleanup_shm env.shmdt st).2
        (0, st)

/-! ## Specification-side notions and sample inputs -/

/-- The counter of a slot, taken modulo `2^32`, is odd. -/
def count_odd (s : shmTime) : Prop := (s.count % 4294967296) % 2 = 1

/-- The pair (validity, counter) a polling reader observes. -/
def observed (s : shmTime) : Int × Int := (s.valid, s.count)

/-- The OS calls of `init_shm` both succeed for the configured unit. -/
def init_ok (os : ShmOS) (st : State) : Prop :=
  os.shmget (0x4e545030 + st.shm_unit) ≠ -1 ∧ os.shmat_ok = true

/-- The acceptance condition in the words of the specification: minute length ok,
both check-bit flags set, daylight status not `error`, and none of the six field
statuses parity-error or BCD-error. -/
def clean (dt : DT_result) : Prop :=
  dt.minute_length = eDT_length.emin_ok ∧ dt.bit0_ok = true ∧ dt.bit20_ok = true ∧
    dt.dst_status ≠ eDT_DST.eDST_error ∧
    ∀ s ∈ [dt.minute_status, dt.hour_status, dt.mday_status, dt.wday_status,
        dt.month_status, dt.year_status],
      s ≠ eDT_value.eval_parity ∧ s ≠ eDT_value.eval_bcd

/-- Cleanness of a record is decidable. -/
instance (dt : DT_result) : Decidable (clean dt) := by
  unfold clean; infer_instance

/-- The pair `(has_error, error_msg)` is coherent: the flag is clear exactly when
the message is empty. -/
def coherent (st : Bool × String) : Prop := st.1 = false ↔ st.2 = ""

/-- The label groups selected by the three low bits of a region code, in
bit-significance order. -/
def label_groups (r1 : Nat) : List String :=
  (if r1.testBit 0 then [reg1n] else []) ++ (if r1.testBit 1 then [reg1m] else []) ++
    (if r1.testBit 2 then [reg1s] else [])

/-- The two halves of an alert record agree on `r1` and on `ps`. -/
def consistent (alarm : alm) : Prop :=
  (alarm.region 0).r1 = (alarm.region 1).r1 ∧ (alarm.parity 0).ps = (alarm.parity 1).ps

/-- The buffer `civbuf + s`: entry `k` is entry `k + s` of the original. -/
def shift_buf (civbuf : Nat → Nat) (s : Nat) : Nat → Nat := fun k => civbuf (k + s)

/-- The record whose first region code is `k` in both halves, all else 0. -/
def alm_of_r1 (k : Nat) : alm :=
  { region := fun _ => { r1 := k, r2 := 0, r3 := 0, r4 := 0 },
    parity := fun _ => { ps := 0, pl := 0 } }

/-- The record with the given two regions and two parities. -/
def alm_of (ra rb : Region) (pa pb : Parity) : alm :=
  { region := fun i => if i = 0 then ra else rb,
    parity := fun i => if i = 0 then pa else pb }

/-- The claim of a single stride `s`: on every buffer, every code of half 1 is the
corresponding code of the half-0 extraction on the buffer shifted by `s`. -/
def single_stride (s : Nat) : Prop :=
  ∀ (civbuf : Nat → Nat) (alarm : alm), (∀ k, civbuf k ≤ 1) →
    (decode_alarm civbuf alarm).region 1 =
        (decode_alarm_body (shift_buf civbuf s) 0 alarm).region 0 ∧
      (decode_alarm civbuf alarm).parity 1 =
        (decode_alarm_body (shift_buf civbuf s) 0 alarm).parity 0

/-- The buffer with a single 1 at index `j`. -/
def unit_buf (j : Nat) : Nat → Nat := fun k => if k = j then 1 else 0

/-- Sample OS behaviour: both `shmget` and `shmat` succeed. -/
def demo_os : ShmOS :=
  { shmget := fun _ => 7, shmat_ok := true, errno_shmget := 0, errno_shmat := 0 }

/-- Sample prior content of the segment, left by an earlier run. -/
def demo_seg : shmTime :=
  { mode := 0, count := 5, clockTimeStampSec := 11, clockTimeStampUSec := 12,
    receiveTimeStampSec := 13, receiveTimeStampUSec := 14, leap := 1, precision := 0,
    nsamples := 0, valid := 1, clockTimeStampNSec := 15, receiveTimeStampNSec := 16,
    dummy := List.replicate 8 0 }

/-- Sample statics before `init_shm`: unit 2, nothing attached. -/
def demo_state : State := { shm_unit := 2, shmid := -1, shm := false, seg := demo_seg }

/-- Sample statics with the segment attached. -/
def demo_attached : State := { shm_unit := 2, shmid := 7, shm := true, seg := demo_seg }

/-- Sample DCF77 time: Friday 2025-10-31 15:00, winter time. -/
def demo_time : tm :=
  { tm_sec := 0, tm_min := 0, tm_hour := 15, tm_mday := 31, tm_mon := 10, tm_year := 2025,
    tm_wday := 5, tm_yday := 0, tm_isdst := 0 }

/-- Sample libc behaviour: `mktime` resolves a time in October 2025 and fails on
any other, `gettimeofday` succeeds. -/
def demo_env : UpdateEnv :=
  { mktime := fun t => if t.tm_year = 125 ∧ t.tm_mon = 9 then 1761919200 else -1,
    gettimeofday := (0, { tv_sec := 1761919201, tv_usec := 250000 }) }

/-- Sample libc behaviour with a `mktime` that always returns `-1`. -/
def demo_env_failing : UpdateEnv :=
  { mktime := fun _ => -1,
    gettimeofday := (0, { tv_sec := 1761919201, tv_usec := 250000 }) }

/-- Sample sequence of two updates, the first succeeding, the second failing. -/
def demo_calls : List UpdateCall :=
  [{ env := demo_env, dcf_time := demo_time, leap_second := 0 },
   { env := demo_env_failing, dcf_time := demo_time, leap_second := 1 }]

/-- The (validity, counter) pair after `q` of the four stores to the `volatile`
members have been performed, for a slot that held `(v, k)` before the call. -/
def handshake_pair (v k : Int) : Nat → Int × Int
  | 0 => (v, k)
  | 1 => (0, k)
  | 2 => (0, wrap_int (k + 1))
  | 3 => (0, wrap_int (wrap_int (k + 1) + 1))
  | _ => (1, wrap_int (wrap_int (k + 1) + 1))

/-- Sample store order: the two stores of the clock timestamp (seconds and
microseconds) are performed right after `valid = 0`, before the first `count++`. -/
def demo_order : List Nat := [0, 2, 3, 1, 4, 5, 6, 7, 8, 9, 10]

/-- Sample successful update announcing a leap second. -/
def demo_call : UpdateCall := { env := demo_env, dcf_time := demo_time, leap_second := 1 }

/-- Sample decode result without any error. -/
def demo_dt : DT_result :=
  { bit0_ok := true, bit20_ok := true, minute_length := eDT_length.emin_ok,
    minute_status := eDT_value.eval_ok, hour_status := eDT_value.eval_ok,
    mday_status := eDT_value.eval_ok, wday_status := eDT_value.eval_ok,
    month_status := eDT_value.eval_ok, year_status := eDT_value.eval_ok,
    dst_status := eDT_DST.eDST_ok, dst_announce := false, leap_announce := true }

/-- Sample consistent alert record with bits 0 and 2 of `r1` set. -/
def demo_alarm : alm := alm_of ⟨5, 1, 2, 3⟩ ⟨5, 4, 5, 6⟩ ⟨3, 7⟩ ⟨3, 8⟩

/-- Sample content of the static result buffer. -/
def demo_res : Nat → Char := fun _ => 'x'

/-- The all-zero bit buffer. -/
def zero_buf : Nat → Nat := fun _ => 0

/-- The error numbers the OS reports are positive (a failing call sets `errno` to
a positive value, and no library function sets it to 0). -/
def errno_set (os : ShmOS) : Prop := 0 < os.errno_shmget ∧ 0 < os.errno_shmat

/-- One of the two OS calls of `init_shm` fails for the configured unit. -/
def init_fails (os : ShmOS) (st : State) : Prop :=
  os.shmget (0x4e545030 + st.shm_unit) = -1 ∨ os.shmat_ok = false

/-- Failure of the OS calls of `init_shm` is decidable. -/
instance (os : ShmOS) (st : State) : Decidable (init_fails os st) := by
  unfold init_fails; infer_instance

/-- The unit the specification prescribes for a configured value: the value itself
inside 0..3, and 0 for any other value and for an absent field. -/
def clamp_unit : Option Int → Int
  | some v => if 0 ≤ v ∧ v ≤ 3 then v else 0
  | none => 0

/-- The three startup failure classes of the specification. -/
inductive FailureClass where
  | configuration
  | decode_engine
  | shared_memory
deriving DecidableEq, Repr

/-- The startup failure class an environment leads to, if any: the configuration
cannot be read, the Decode Engine initialiser reports an error, or the segment
cannot be created or attached. -/
def failure_class (env : MainEnv) : Option FailureClass :=
  match env.config with
  | none => some FailureClass.configuration
  | some value =>
    if env.set_mode_live ≠ 0 then some FailureClass.decode_engine
    else if init_fails env.os (read_shm_unit value (startup env.prior)) then
      some FailureClass.shared_memory
    else none

/-- Sample OS behaviour: `shmget` fails with `EACCES` (13). -/
def demo_os_denied : ShmOS :=
  { shmget := fun _ => -1, shmat_ok := false, errno_shmget := 13, errno_shmat := 22 }

/-- Sample OS behaviour: `shmget` succeeds, `shmat` fails with `EINVAL` (22). -/
def demo_os_unattached : ShmOS :=
  { shmget := fun _ => 7, shmat_ok := false, errno_shmget := 13, errno_shmat := 22 }

/-- Sample run: the configuration selects unit 2, everything succeeds, one clean
minute is decoded, the detach fails. -/
def demo_main_env : MainEnv :=
  { config := some (some 2), set_mode_live := 0, os := demo_os,
    minutes := [(demo_env, demo_dt, demo_time)], shmdt := -1, prior := demo_seg }

/-- Sample run: the Decode Engine initialiser fails with the code 13. -/
def demo_main_env_engine : MainEnv :=
  { config := some (some 7), set_mode_live := 13, os := demo_os, minutes := [],
    shmdt := 0, prior := demo_seg }

/-- Sample run: the segment cannot be created, `errno` is 13. -/
def demo_main_env_denied : MainEnv :=
  { config := some none, set_mode_live := 0, os := demo_os_denied, minutes := [],
    shmdt := 0, prior := demo_seg }

/-- Sample run: the segment is found but cannot be attached, `errno` is 22. -/
def demo_main_env_unattached : MainEnv :=
  { config := some (some 1), set_mode_live := 0, os := demo_os_unattached, minutes := [],
    shmdt := 0, prior := demo_seg }

/-- Sample run: the Decode Engine initialiser fails with the code 66. -/
def demo_main_env_engine66 : MainEnv :=
  { config := some none, set_mode_live := 66, os := demo_os, minutes := [],
    shmdt := 0, prior := demo_seg }

/-- Sample run: the configuration file cannot be read. -/
def demo_main_env_noconfig : MainEnv :=
  { config := none, set_mode_live := 0, os := demo_os, minutes := [],
    shmdt := 0, prior := demo_seg }

/-- The buffer indices `decode_alarm` reads for `r1` of half `i`, least significant
bit first. -/
def r1_reads (i : Nat) : List Nat := [6 * i, 1 + 6 * i, 3 + 6 * i]

/-- The buffer indices `decode_alarm` reads for `r2` of half `i`. -/
def r2_reads (i : Nat) : List Nat := [12 + 14 * i, 13 + 14 * i, 14 + 14 * i]

/-- The buffer indices `decode_alarm` reads for `r3` of half `i`. -/
def r3_reads (i : Nat) : List Nat := [15 + 14 * i, 16 + 14 * i, 17 + 14 * i]

/-- The buffer indices `decode_alarm` reads for `r4` of half `i`. -/
def r4_reads (i : Nat) : List Nat := [19 + 14 * i, 20 + 14 * i, 21 + 14 * i, 23 + 14 * i]

/-- The buffer indices `decode_alarm` reads for `ps` of half `i`. -/
def ps_reads (i : Nat) : List Nat := [2 + 6 * i, 4 + 6 * i, 5 + 6 * i]

/-- The buffer indices `decode_alarm` reads for `pl` of half `i`. -/
def pl_reads (i : Nat) : List Nat := [18 + 14 * i, 22 + 14 * i, 24 + 14 * i, 25 + 14 * i]

/-- All buffer indices read by `decode_alarm`, in program order, one entry per
read. -/
def decode_alarm_reads : List Nat :=
  r1_reads 0 ++ r2_reads 0 ++ r3_reads 0 ++ r4_reads 0 ++ ps_reads 0 ++ pl_reads 0 ++
    (r1_reads 1 ++ r2_reads 1 ++ r3_reads 1 ++ r4_reads 1 ++ ps_reads 1 ++ pl_reads 1)

/-- The sum of the buffer entries at the given indices with the binary weights
1, 2, 4, ... -/
def weighted (civbuf : Nat → Nat) : List Nat → Nat
  | [] => 0
  | k :: ks => civbuf k + 2 * weighted civbuf ks

/-- The buffer holding the binary digits of `v` at the given indices (least
significant first) and 0 elsewhere. -/
def bits_at (idx : List Nat) (v : Nat) : Nat → Nat :=
  fun k => if k ∈ idx then (v / 2 ^ idx.indexOf k) % 2 else 0

/-- Sample bit buffer: ones at the indices 1, 8 and 39. -/
def demo_buf : Nat → Nat := fun k => if k = 1 ∨ k = 8 ∨ k = 39 then 1 else 0

/-- Sample bit buffer equal to `demo_buf` on 0..39 and different at index 47. -/
def demo_buf_tail : Nat → Nat := fun k => if k = 47 then 1 else demo_buf k

/-- Some date-related status (day of month, weekday, month, year) is a parity error. -/
def any_date_parity (dt : DT_result) : Prop :=
  ∃ s ∈ [dt.mday_status, dt.wday_status, dt.month_status, dt.year_status],
    s = eDT_value.eval_parity

/-- Some date-related status (day of month, weekday, month, year) is a BCD error. -/
def any_date_bcd (dt : DT_result) : Prop :=
  ∃ s ∈ [dt.mday_status, dt.wday_status, dt.month_status, dt.year_status],
    s = eDT_value.eval_bcd

/-- Whether some date status is a parity error is decidable. -/
instance (dt : DT_result) : Decidable (any_date_parity dt) := by
  unfold any_date_parity; infer_instance

/-- Whether some date status is a BCD error is decidable. -/
instance (dt : DT_result) : Decidable (any_date_bcd dt) := by
  unfold any_date_bcd; infer_instance

/-- The words of a message: the maximal runs of characters between blanks, where
`cur` is the word being read. A word is closed by the blank that follows it. -/
def split_tags : List Char → List Char → List (List Char)
  | cur, [] => if cur = [] then [] else [cur]
  | cur, c :: cs => if c = ' ' then cur :: split_tags [] cs else split_tags (cur ++ [c]) cs

/-- The tags a diagnostic message holds: its blank-terminated words, in order. -/
def tags_of (msg : String) : List String := (split_tags [] msg.data).map String.mk

/-- The tag set of a decode result, as `display_time` writes it to `error_msg`. -/
def tag_set (dt : DT_result) : List String := tags_of (error_msg dt)

/-- The tags the specification prescribes for a decode result, in the order of the
checks. -/
def tag_list (dt : DT_result) : List String :=
  (if dt.minute_length ≠ eDT_length.emin_ok then ["minute_length_error"] else []) ++
  (if dt.bit0_ok = false then ["bit0_error"] else []) ++
  (if dt.bit20_ok = false then ["bit20_error"] else []) ++
  (if dt.dst_status = eDT_DST.eDST_error then ["dst_error"] else []) ++
  (if dt.minute_status = eDT_value.eval_parity then ["minute_parity_error"]
    else if dt.minute_status = eDT_value.eval_bcd then ["minute_bcd_error"] else []) ++
  (if dt.hour_status = eDT_value.eval_parity then ["hour_parity_error"]
    else if dt.hour_status = eDT_value.eval_bcd then ["hour_bcd_error"] else []) ++
  (if any_date_parity dt then ["date_parity_error"] else []) ++
  (if any_date_bcd dt then ["date_bcd_error"] else [])

/-- The text of a list of tags, each followed by one blank. -/
def tag_text (tags : List String) : List Char :=
  (tags.map (fun t => t.data ++ [' '])).flatten

/-- Sample decode result with every check failing: month parity error and year
BCD error among the date fields. -/
def demo_dt_broken : DT_result :=
  { bit0_ok := false, bit20_ok := false, minute_length := eDT_length.emin_other 1,
    minute_status := eDT_value.eval_parity, hour_status := eDT_value.eval_parity,
    mday_status := eDT_value.eval_ok, wday_status := eDT_value.eval_ok,
    month_status := eDT_value.eval_parity, year_status := eDT_value.eval_bcd,
    dst_status := eDT_DST.eDST_error, dst_announce := false, leap_announce := false }

/-- The ten tags `display_time` can write. -/
def all_tags : List String :=
  ["minute_length_error", "bit0_error", "bit20_error", "dst_error", "minute_parity_error",
    "minute_bcd_error", "hour_parity_error", "hour_bcd_error", "date_parity_error",
    "date_bcd_error"]

/-- The record with its four date-related statuses replaced: day of month, weekday,
month and year, in this order, by `f 0`, `f 1`, `f 2`, `f 3`. -/
def set_date_statuses (dt : DT_result) (f : Fin 4 → eDT_value) : DT_result :=
  { dt with mday_status := f 0, wday_status := f 1, month_status := f 2, year_status := f 3 }

/-- The four date-related statuses of a record: day of month, weekday, month, year. -/
def date_statuses (dt : DT_result) : Fin 4 → eDT_value :=
  fun i => [dt.mday_status, dt.wday_status, dt.month_status, dt.year_status].get i

/-! ## Properties -/

theorem wrap_int_succ_parity (k : Int) : wrap_int (k + 1) % 2 = (k + 1) % 2 := by
  unfold wrap_int; omega

theorem init_shm_seg (os : ShmOS) (st : State) (h : init_ok os st) :
    (init_shm os st).2.seg.count = 0 ∧ (init_shm os st).2.seg.valid = 0 ∧
      (init_shm os st).2.shm = true := by
  obtain ⟨h1, h2⟩ := h
  simp [init_shm, h1, h2, memset_zero]

theorem handshake_pair_ge (v k : Int) (q : Nat) (hq : 4 ≤ q) :
    handshake_pair v k q = handshake_pair v k 4 := by
  obtain ⟨r, rfl⟩ : ∃ r, q = r + 4 := ⟨q - 4, by omega⟩
  rfl

theorem observed_nonvolatile (t : Int) (tv : timeval) (l : Int) (j : Nat)
    (hj : volatile_store j = false) (s : shmTime) :
    observed ((update_shm_writes t tv l).getD j id s) = observed s := by
  by_cases h : j < 11
  · interval_cases j <;> first | exact absurd hj (by decide) | rfl
  · have e : (update_shm_writes t tv l).getD j id = id := by
      apply List.getD_eq_default
      simp only [update_shm_writes, List.length_cons, List.length_nil]
      omega
    rw [e]; rfl

theorem observed_volatile (t : Int) (tv : timeval) (l : Int) (v k : Int) (s : shmTime)
    (p : Nat) (hp : p < 4) (hs : observed s = handshake_pair v k p) :
    observed ((update_shm_writes t tv l).getD ([0, 1, 9, 10].getD p 0) id s) =
      handshake_pair v k (p + 1) := by
  interval_cases p <;>
    simp only [observed, handshake_pair, Prod.mk.injEq] at hs <;>
    simp [observed, handshake_pair, update_shm_writes, hs.1, hs.2]

theorem reordered_phases (t : Int) (tv : timeval) (l : Int) (v k : Int) :
    ∀ (order : List Nat) (s : shmTime) (p : Nat),
      order.filter volatile_store = [0, 1, 9, 10].drop p →
      observed s = handshake_pair v k p →
      (∀ x ∈ trace_stores (reorder (update_shm_writes t tv l) order) s,
          ∃ q, q ≤ 4 ∧ observed x = handshake_pair v k q) ∧
        (trace_volatile (update_shm_writes t tv l) order s).map observed =
          ([1, 2, 3, 4].drop p).map (handshake_pair v k) ∧
        observed (run_stores (reorder (update_shm_writes t tv l) order) s) =
          handshake_pair v k 4 := by
  intro order
  induction order with
  | nil =>
    intro s p hf hs
    have hp : 4 ≤ p := by
      by_contra hlt
      have : p < 4 := by omega
      interval_cases p <;> simp at hf
    refine ⟨?_, ?_, ?_⟩
    · intro x hx; simp [reorder, trace_stores] at hx
    · have e : ([1, 2, 3, 4] : List Nat).drop p = [] := by
        apply List.drop_eq_nil_of_le; simpa using hp
      simp [trace_volatile, e]
    · simp only [reorder, List.map_nil, run_stores]
      rw [hs, handshake_pair_ge v k p hp]
  | cons j js ih =>
    intro s p hf hs
    by_cases hv : volatile_store j = true
    · have hp : p < 4 := by
        by_contra hge
        have e : ([0, 1, 9, 10] : List Nat).drop p = [] := by
          apply List.drop_eq_nil_of_le; simp; omega
        simp [List.filter_cons, hv, e] at hf
      have hj : j = [0, 1, 9, 10].getD p 0 ∧
          js.filter volatile_store = [0, 1, 9, 10].drop (p + 1) := by
        interval_cases p <;> simpa [List.filter_cons, hv] using hf
      have hnext := observed_volatile t tv l v k s p hp hs
      rw [← hj.1] at hnext
      obtain ⟨h1, h2, h3⟩ := ih ((update_shm_writes t tv l).getD j id s) (p + 1) hj.2 hnext
      refine ⟨?_, ?_, ?_⟩
      · intro x hx
        simp only [reorder, List.map_cons, trace_stores, List.mem_cons] at hx
        rcases hx with hx | hx
        · exact ⟨p + 1, by omega, by rw [hx]; exact hnext⟩
        · exact h1 x hx
      · simp only [trace_volatile, hv, if_true, List.map_cons, h2, hnext]
        interval_cases p <;> rfl
      · simpa only [reorder, List.map_cons, run_stores] using h3
    · have hv2 : volatile_store j = false := by simpa using hv
      have hf2 : js.filter volatile_store = [0, 1, 9, 10].drop p := by
        simpa [List.filter_cons, hv2] using hf
      have hsame := observed_nonvolatile t tv l j hv2 s
      obtain ⟨h1, h2, h3⟩ :=
        ih ((update_shm_writes t tv l).getD j id s) p hf2 (hsame.trans hs)
      refine ⟨?_, ?_, ?_⟩
      · intro x hx
        simp only [reorder, List.map_cons, trace_stores, List.mem_cons] at hx
        rcases hx with hx | hx
        · rcases Nat.lt_or_ge p 4 with hlt | hge
          · exact ⟨p, by omega, by rw [hx]; exact hsame.trans hs⟩
          · exact ⟨4, Nat.le_refl _, by
              rw [hx, hsame, hs]; exact handshake_pair_ge v k p hge⟩
        · exact h1 x hx
      · simpa only [trace_volatile, hv2, Bool.false_eq_true, if_false] using h2
      · simpa only [reorder, List.map_cons, run_stores] using h3

theorem update_shm_stores_cases (env : UpdateEnv) (st : State) (dcf_time : tm)
    (leap_second : Int) :
    update_shm_stores env st dcf_time leap_second = [] ∨
      (st.shm = true ∧ env.mktime (std_time_of dcf_time) ≠ -1 ∧ env.gettimeofday.1 = 0 ∧
        update_shm_stores env st dcf_time leap_second =
          update_shm_writes (env.mktime (std_time_of dcf_time)) env.gettimeofday.2
            leap_second) := by
  unfold update_shm_stores
  by_cases h1 : st.shm = true
  · by_cases h2 : env.mktime (std_time_of dcf_time) = -1
    · left; simp [h1, h2]
    · by_cases h3 : env.gettimeofday.1 = 0
      · right; exact ⟨h1, h2, h3, by simp [h1, h2, h3]⟩
      · left; simp [h1, h2, h3]
  · left; simp [h1]

theorem update_shm_stores_in_success (order : List Nat) (env : UpdateEnv) (st : State)
    (dcf_time : tm) (leap_second : Int) (hshm : st.shm = true)
    (hmk : env.mktime (std_time_of dcf_time) ≠ -1) (hgt : env.gettimeofday.1 = 0) :
    update_shm_stores env st dcf_time leap_second =
        update_shm_writes (env.mktime (std_time_of dcf_time)) env.gettimeofday.2
          leap_second ∧
      update_shm_stores_in order env st dcf_time leap_second =
        reorder (update_shm_writes (env.mktime (std_time_of dcf_time)) env.gettimeofday.2
          leap_second) order := by
  have e : update_shm_stores env st dcf_time leap_second =
      update_shm_writes (env.mktime (std_time_of dcf_time)) env.gettimeofday.2
        leap_second := by
    simp [update_shm_stores, hshm, hmk, hgt]
  refine ⟨e, ?_⟩
  unfold update_shm_stores_in
  rw [e]
  rfl

theorem run_reorder_set {α : Type} (π : shmTime → α) (v : α) (w : List (shmTime → shmTime))
    (j : Nat) (hset : ∀ s, π (w.getD j id s) = v)
    (hkeep : ∀ i s, i ≠ j → π (w.getD i id s) = π s) :
    ∀ (order : List Nat) (s : shmTime), (j ∈ order ∨ π s = v) →
      π (run_stores (reorder w order) s) = v := by
  intro order
  induction order with
  | nil =>
    intro s h
    rcases h with h | h
    · simp at h
    · simpa [reorder, run_stores] using h
  | cons i rest ih =>
    intro s h
    simp only [reorder, List.map_cons, run_stores]
    apply ih
    by_cases hij : i = j
    · right; rw [hij]; exact hset s
    · rcases h with h | h
      · left
        rcases List.mem_cons.1 h with h | h
        · exact absurd h.symm hij
        · exact h
      · right; rw [hkeep i s hij]; exact h

theorem run_reorder_keep {α : Type} (π : shmTime → α) (w : List (shmTime → shmTime))
    (hkeep : ∀ i s, π (w.getD i id s) = π s) :
    ∀ (order : List Nat) (s : shmTime), π (run_stores (reorder w order) s) = π s := by
  intro order
  induction order with
  | nil => intro s; rfl
  | cons i rest ih =>
    intro s
    simp only [reorder, List.map_cons, run_stores]
    exact (ih _).trans (hkeep i s)

theorem update_shm_writes_beyond (t : Int) (tv : timeval) (l : Int) (i : Nat) (hi : ¬ i < 11) :
    (update_shm_writes t tv l).getD i id = id := by
  apply List.getD_eq_default
  simp only [update_shm_writes, List.length_cons, List.length_nil]
  omega

theorem run_reorder_writes (t : Int) (tv : timeval) (l : Int) (order : List Nat) (s : shmTime)
    (hord : admissible_order order) :
    run_stores (reorder (update_shm_writes t tv l) order) s =
      run_stores (update_shm_writes t tv l) s := by
  have hmem : ∀ j, j < 11 → j ∈ order := fun j hj =>
    (List.Perm.mem_iff hord.1).2 (List.mem_range.2 hj)
  obtain ⟨_, _, hvc⟩ := reordered_phases t tv l s.valid s.count order s 0 hord.2 rfl
  simp only [observed, handshake_pair, Prod.mk.injEq] at hvc
  have h2 := run_reorder_set (fun x => x.clockTimeStampSec) t (update_shm_writes t tv l) 2
    (fun _ => rfl) (fun i x hi => by
      by_cases h : i < 11
      · interval_cases i <;> first | rfl | exact absurd rfl hi
      · rw [update_shm_writes_beyond t tv l i h]; rfl) order s (Or.inl (hmem 2 (by decide)))
  have h3 := run_reorder_set (fun x => x.clockTimeStampUSec) 0 (update_shm_writes t tv l) 3
    (fun _ => rfl) (fun i x hi => by
      by_cases h : i < 11
      · interval_cases i <;> first | rfl | exact absurd rfl hi
      · rw [update_shm_writes_beyond t tv l i h]; rfl) order s (Or.inl (hmem 3 (by decide)))
  have h4 := run_reorder_set (fun x => x.clockTimeStampNSec) 0 (update_shm_writes t tv l) 4
    (fun _ => rfl) (fun i x hi => by
      by_cases h : i < 11
      · interval_cases i <;> first | rfl | exact absurd rfl hi
      · rw [update_shm_writes_beyond t tv l i h]; rfl) order s (Or.inl (hmem 4 (by decide)))
  have h5 := run_reorder_set (fun x => x.receiveTimeStampSec) tv.tv_sec
    (update_shm_writes t tv l) 5
    (fun _ => rfl) (fun i x hi => by
      by_cases h : i < 11
      · interval_cases i <;> first | rfl | exact absurd rfl hi
      · rw [update_shm_writes_beyond t tv l i h]; rfl) order s (Or.inl (hmem 5 (by decide)))
  have h6 := run_reorder_set (fun x => x.receiveTimeStampUSec) (wrap_int tv.tv_usec)
    (update_shm_writes t tv l) 6
    (fun _ => rfl) (fun i x hi => by
      by_cases h : i < 11
      · interval_cases i <;> first | rfl | exact absurd rfl hi
      · rw [update_shm_writes_beyond t tv l i h]; rfl) order s (Or.inl (hmem 6 (by decide)))
  have h7 := run_reorder_set (fun x => x.receiveTimeStampNSec)
    (wrap_unsigned (tv.tv_usec * 1000)) (update_shm_writes t tv l) 7
    (fun _ => rfl) (fun i x hi => by
      by_cases h : i < 11
      · interval_cases i <;> first | rfl | exact absurd rfl hi
      · rw [update_shm_writes_beyond t tv l i h]; rfl) order s (Or.inl (hmem 7 (by decide)))
  have h8 := run_reorder_set (fun x => x.leap) (if l ≠ 0 then 1 else 0)
    (update_shm_writes t tv l) 8
    (fun _ => rfl) (fun i x hi => by
      by_cases h : i < 11
      · interval_cases i <;> first | rfl | exact absurd rfl hi
      · rw [update_shm_writes_beyond t tv l i h]; rfl) order s (Or.inl (hmem 8 (by decide)))
  have k1 := run_reorder_keep (fun x => x.mode) (update_shm_writes t tv l)
    (fun i x => by
      by_cases h : i < 11
      · interval_cases i <;> rfl
      · rw [update_shm_writes_beyond t tv l i h]; rfl) order s
  have k2 := run_reorder_keep (fun x => x.precision) (update_shm_writes t tv l)
    (fun i x => by
      by_cases h : i < 11
      · interval_cases i <;> rfl
      · rw [update_shm_writes_beyond t tv l i h]; rfl) order s
  have k3 := run_reorder_keep (fun x => x.nsamples) (update_shm_writes t tv l)
    (fun i x => by
      by_cases h : i < 11
      · interval_cases i <;> rfl
      · rw [update_shm_writes_beyond t tv l i h]; rfl) order s
  have k4 := run_reorder_keep (fun x => x.dummy) (update_shm_writes t tv l)
    (fun i x => by
      by_cases h : i < 11
      · interval_cases i <;> rfl
      · rw [update_shm_writes_beyond t tv l i h]; rfl) order s
  generalize run_stores (reorder (update_shm_writes t tv l) order) s = r at *
  cases r
  simp only [update_shm_writes, run_stores] at *
  simp only [shmTime.mk.injEq]
  simp_all

theorem update_shm_in_eq (order : List Nat) (env : UpdateEnv) (st : State) (dcf_time : tm)
    (leap_second : Int) (hord : admissible_order order) :
    update_shm_in order env st dcf_time leap_second =
      update_shm env st dcf_time leap_second := by
  rcases update_shm_stores_cases env st dcf_time leap_second with h | ⟨h1, h2, h3, h4⟩
  · have e : update_shm_stores_in order env st dcf_time leap_second = [] := by
      unfold update_shm_stores_in; rw [h]
    simp [update_shm_in, update_shm, e, h]
  · have e := (update_shm_stores_in_success order env st dcf_time leap_second h1 h2 h3).2
    simp only [update_shm_in, update_shm, e, h4]
    rw [run_reorder_writes _ _ _ order st.seg hord]

theorem handshake_pair_safe (v k : Int) (hk : k % 2 = 0) (q : Nat) (x : shmTime)
    (hx : observed x = handshake_pair v k q) : ¬ (x.valid = 1 ∧ count_odd x) := by
  have e1 := wrap_int_succ_parity k
  have e2 := wrap_int_succ_parity (wrap_int (k + 1))
  unfold count_odd
  rcases q with _ | _ | _ | _ | q <;>
    simp only [observed, handshake_pair, Prod.mk.injEq] at hx <;>
    obtain ⟨hv, hc⟩ := hx <;> rw [hv, hc] <;> omega

theorem update_shm_in_even (order : List Nat) (env : UpdateEnv) (st : State) (dcf_time : tm)
    (leap_second : Int) (hord : admissible_order order) (hk : st.seg.count % 2 = 0) :
    (∀ x ∈ trace_stores (update_shm_stores_in order env st dcf_time leap_second) st.seg,
        ¬ (x.valid = 1 ∧ count_odd x)) ∧
      (update_shm_in order env st dcf_time leap_second).seg.count % 2 = 0 ∧
      (update_shm_in order env st dcf_time leap_second).shm = st.shm := by
  rcases update_shm_stores_cases env st dcf_time leap_second with h | ⟨h1, h2, h3, _⟩
  · have e : update_shm_stores_in order env st dcf_time leap_second = [] := by
      unfold update_shm_stores_in; rw [h]
    simp [update_shm_in, e, trace_stores, run_stores, hk]
  · have e := (update_shm_stores_in_success order env st dcf_time leap_second h1 h2 h3).2
    obtain ⟨p1, _, p3⟩ := reordered_phases (env.mktime (std_time_of dcf_time))
      env.gettimeofday.2 leap_second st.seg.valid st.seg.count order st.seg 0 hord.2 rfl
    refine ⟨?_, ?_, rfl⟩
    · intro x hx
      rw [e] at hx
      obtain ⟨q, _, hq⟩ := p1 x hx
      exact handshake_pair_safe _ _ hk q x hq
    · simp only [update_shm_in, e]
      simp only [observed, handshake_pair, Prod.mk.injEq] at p3
      rw [p3.2]
      have e1 := wrap_int_succ_parity st.seg.count
      have e2 := wrap_int_succ_parity (wrap_int (st.seg.count + 1))
      omega

theorem run_updates_in_even (order : List Nat) (calls : List UpdateCall) (st : State)
    (hord : admissible_order order) (hk : st.seg.count % 2 = 0) :
    (∀ x ∈ observe_updates_in order calls st, ¬ (x.valid = 1 ∧ count_odd x)) ∧
      (run_updates_in order calls st).seg.count % 2 = 0 ∧
      (run_updates_in order calls st).shm = st.shm := by
  induction calls generalizing st with
  | nil => exact ⟨by simp [observe_updates_in], by simpa [run_updates_in] using hk, rfl⟩
  | cons c cs ih =>
    obtain ⟨h1, h2, h3⟩ := update_shm_in_even order c.env st c.dcf_time c.leap_second hord hk
    obtain ⟨i1, i2, i3⟩ := ih (update_shm_in order c.env st c.dcf_time c.leap_second) h2
    refine ⟨?_, ?_, ?_⟩
    · intro x hx
      simp only [observe_updates_in, List.mem_append] at hx
      rcases hx with hx | hx
      · exact h1 x hx
      · exact i1 x hx
    · simpa only [run_updates_in] using i2
    · simp only [run_updates_in]; rw [i3, h3]

/-- Claim C2. A failed conversion (`mktime` returns `-1`) makes `update_shm` perform no
store at all: the whole state, hence every field of the slot including `valid` and
`count`, is exactly as before the call. -/
theorem update_shm_conversion_failure (env : UpdateEnv) (st : State) (dcf_time : tm)
    (leap_second : Int) (h : env.mktime (std_time_of dcf_time) = -1) :
    update_shm_stores env st dcf_time leap_second = [] ∧
      update_shm env st dcf_time leap_second = st := by
  have hs : update_shm_stores env st dcf_time leap_second = [] := by
    unfold update_shm_stores
    by_cases h1 : st.shm = true <;> simp [h1, h]
  exact ⟨hs, by simp [update_shm, hs, run_stores]⟩

/-- Witness for C2: the sample `mktime` that always fails leaves the attached sample
state untouched. -/
theorem update_shm_conversion_failure_witness :
    demo_env_failing.mktime (std_time_of demo_time) = -1 ∧
      update_shm_stores demo_env_failing demo_attached demo_time 1 = [] ∧
      update_shm demo_env_failing demo_attached demo_time 1 = demo_attached :=
  ⟨by decide, update_shm_conversion_failure demo_env_failing demo_attached demo_time 1
    (by decide)⟩

/-- Claim C8. Postcondition of a successful `update_shm`: with the segment attached, a
resolved timestamp `t ≠ -1` and a wall-clock reading `(sec, usec)`, `0 ≤ usec < 10^6`,
the slot afterwards has `valid = 1`, the counter advanced by 2 modulo `2^32`, the clock
timestamp `(t, 0, 0)`, the receive timestamp `(sec, usec, usec * 1000)` with
`usec * 1000` inside the unsigned range, `leap` equal to 1 for a non-zero flag and 0
otherwise, and `mode`, `precision`, `nsamples` unchanged. -/
theorem update_shm_success (env : UpdateEnv) (st : State) (dcf_time : tm)
    (leap_second t sec usec : Int) (hshm : st.shm = true)
    (hmk : env.mktime (std_time_of dcf_time) = t) (ht : t ≠ -1)
    (hgt : env.gettimeofday = (0, { tv_sec := sec, tv_usec := usec }))
    (hlo : 0 ≤ usec) (hhi : usec < 1000000) :
    (update_shm env st dcf_time leap_second).seg.valid = 1 ∧
    (update_shm env st dcf_time leap_second).seg.count = wrap_int (st.seg.count + 2) ∧
    ((update_shm env st dcf_time leap_second).seg.count - (st.seg.count + 2)) % 4294967296 = 0 ∧
    (update_shm env st dcf_time leap_second).seg.clockTimeStampSec = t ∧
    (update_shm env st dcf_time leap_second).seg.clockTimeStampUSec = 0 ∧
    (update_shm env st dcf_time leap_second).seg.clockTimeStampNSec = 0 ∧
    (update_shm env st dcf_time leap_second).seg.receiveTimeStampSec = sec ∧
    (update_shm env st dcf_time leap_second).seg.receiveTimeStampUSec = usec ∧
    ((update_shm env st dcf_time leap_second).seg.receiveTimeStampNSec : Int) = usec * 1000 ∧
    usec * 1000 < 4294967296 ∧
    (update_shm env st dcf_time leap_second).seg.leap = (if leap_second ≠ 0 then 1 else 0) ∧
    (update_shm env st dcf_time leap_second).seg.mode = st.seg.mode ∧
    (update_shm env st dcf_time leap_second).seg.precision = st.seg.precision ∧
    (update_shm env st dcf_time leap_second).seg.nsamples = st.seg.nsamples := by
  have hstores : update_shm_stores env st dcf_time leap_second =
      update_shm_writes t { tv_sec := sec, tv_usec := usec } leap_second := by
    simp [update_shm_stores, hshm, hmk, ht, hgt]
  simp only [update_shm, hstores, update_shm_writes, run_stores, wrap_int, wrap_unsigned]
  refine ⟨?_, ?_, ?_, ?_, ?_, ?_, ?_, ?_, ?_, ?_, ?_, ?_, ?_, ?_⟩ <;>
    first | trivial | omega

/-- Witness for C8: the successful demo call on the attached demo state. -/
theorem update_shm_success_witness :
    (update_shm demo_env demo_attached demo_time 1).seg.valid = 1 ∧
      (update_shm demo_env demo_attached demo_time 1).seg.count = 7 ∧
      (update_shm demo_env demo_attached demo_time 1).seg.clockTimeStampSec = 1761919200 ∧
      ((update_shm demo_env demo_attached demo_time 1).seg.receiveTimeStampNSec : Int) =
        250000 * 1000 :=
  have h := update_shm_success demo_env demo_attached demo_time 1 1761919200 1761919201 250000
    (by decide) (by decide) (by decide) (by decide) (by decide) (by decide)
  ⟨h.1, h.2.1, h.2.2.2.1, h.2.2.2.2.2.2.2.2.1⟩

/-- The translation step of `update_shm` alone: for a year and a month inside the
`int` range of the subtraction, undoing the offsets (adding 1900 and 1) gives back
the year and the month, the other fields are copied and the seconds are 0. -/
theorem std_time_of_inverse (dcf_time : tm)
    (hy : -2147481748 ≤ dcf_time.tm_year ∧ dcf_time.tm_year < 2147483648)
    (hm : -2147483647 ≤ dcf_time.tm_mon ∧ dcf_time.tm_mon < 2147483648) :
    (std_time_of dcf_time).tm_year + 1900 = dcf_time.tm_year ∧
      (std_time_of dcf_time).tm_mon + 1 = dcf_time.tm_mon ∧
      (std_time_of dcf_time).tm_mday = dcf_time.tm_mday ∧
      (std_time_of dcf_time).tm_hour = dcf_time.tm_hour ∧
      (std_time_of dcf_time).tm_min = dcf_time.tm_min ∧
      (std_time_of dcf_time).tm_sec = 0 := by
  simp only [std_time_of, wrap_int]
  refine ⟨?_, ?_, ?_, ?_, ?_, ?_⟩ <;> first | trivial | omega

theorem has_error_eq_false_iff (dt : DT_result) : has_error dt = false ↔ clean dt := by
  simp only [has_error, display_time_check, flag_error, apply_ite Prod.fst, clean]
  simp
  tauto

theorem coherent_flag_error (st : Bool × String) (tag : String) (h : 0 < tag.length) :
    coherent (flag_error st tag) := by
  have hne : strcat st.2 tag ≠ "" := by
    intro he
    have hl := congrArg String.length he
    simp [strcat, String.length_append] at hl
    omega
  simp [coherent, flag_error, hne]

theorem coherent_ite (c : Prop) [Decidable c] (a b : Bool × String) (ha : coherent a)
    (hb : coherent b) : coherent (if c then a else b) := by
  split <;> assumption

theorem display_time_check_coherent (dt : DT_result) : coherent (display_time_check dt) := by
  have h0 : coherent (false, "") := by simp [coherent]
  unfold display_time_check
  repeat (first
    | exact h0
    | apply coherent_ite
    | exact coherent_flag_error _ _ (by decide)
    | assumption
    | intro _)
  

theorem error_msg_eq_empty_iff (dt : DT_result) : error_msg dt = "" ↔ has_error dt = false :=
  (display_time_check_coherent dt).symm

/-- Claim C3. Publication gate of `display_time`: `update_shm` is called if and only if the
tag string is empty, which holds if and only if the record is clean (minute length ok,
both check-bit flags set, daylight status not `error`, none of the six field statuses
parity-error or BCD-error); the call made is the one for the given time and leap
announcement; and the state after the callback is that of the update for a clean
record and the unchanged state for any other record. -/
theorem display_time_publication_gate (env : UpdateEnv) (st : State) (dt : DT_result)
    (time : tm) :
    ((∃ t l, Event.call_update_shm t l ∈ (display_time env st dt time).1) ↔
        error_msg dt = "") ∧
      (error_msg dt = "" ↔ clean dt) ∧
      (Event.call_update_shm time (int_of_bool dt.leap_announce) ∈
        (display_time env st dt time).1 ↔ clean dt) ∧
      (display_time env st dt time).2 =
        (if clean dt then update_shm env st time (int_of_bool dt.leap_announce) else st) := by
  have hc := has_error_eq_false_iff dt
  have hm := error_msg_eq_empty_iff dt
  by_cases h : has_error dt = true
  · have hnc : ¬ clean dt := by rw [← hc]; simp [h]
    have hnm : ¬ error_msg dt = "" := by rw [hm]; simp [h]
    simp [display_time, h, hnc, hnm]
  · have hf : has_error dt = false := by simpa using h
    have hcl : clean dt := hc.1 hf
    have hme : error_msg dt = "" := hm.2 hf
    simp only [display_time, hf, hcl, hme, if_true, true_iff, iff_true]
    refine ⟨⟨time, int_of_bool dt.leap_announce, ?_⟩, trivial, ?_, ?_⟩ <;> simp

/-- Claim C4. Classifier monotonicity: for a clean record (no error flagged, empty tag
string), each single modification that introduces one field error makes the record
rejected with a tag string holding exactly the corresponding tag and no other. -/
theorem display_time_check_single_error (dt : DT_result)
    (hclean : display_time_check dt = (false, "")) :
    (∀ k, display_time_check { dt with minute_length := eDT_length.emin_other k } =
        (true, "minute_length_error ")) ∧
    display_time_check { dt with bit0_ok := false } = (true, "bit0_error ") ∧
    display_time_check { dt with bit20_ok := false } = (true, "bit20_error ") ∧
    display_time_check { dt with dst_status := eDT_DST.eDST_error } = (true, "dst_error ") ∧
    display_time_check { dt with minute_status := eDT_value.eval_parity } =
      (true, "minute_parity_error ") ∧
    display_time_check { dt with minute_status := eDT_value.eval_bcd } =
      (true, "minute_bcd_error ") ∧
    display_time_check { dt with hour_status := eDT_value.eval_parity } =
      (true, "hour_parity_error ") ∧
    display_time_check { dt with hour_status := eDT_value.eval_bcd } =
      (true, "hour_bcd_error ") ∧
    display_time_check { dt with mday_status := eDT_value.eval_parity } =
      (true, "date_parity_error ") ∧
    display_time_check { dt with wday_status := eDT_value.eval_parity } =
      (true, "date_parity_error ") ∧
    display_time_check { dt with month_status := eDT_value.eval_parity } =
      (true, "date_parity_error ") ∧
    display_time_check { dt with year_status := eDT_value.eval_parity } =
      (true, "date_parity_error ") ∧
    display_time_check { dt with mday_status := eDT_value.eval_bcd } =
      (true, "date_bcd_error ") ∧
    display_time_check { dt with wday_status := eDT_value.eval_bcd } =
      (true, "date_bcd_error ") ∧
    display_time_check { dt with month_status := eDT_value.eval_bcd } =
      (true, "date_bcd_error ") ∧
    display_time_check { dt with year_status := eDT_value.eval_bcd } =
      (true, "date_bcd_error ") := by
  have hc : clean dt := (has_error_eq_false_iff dt).1 (by simp [has_error, hclean])
  simp only [clean, List.mem_cons, List.mem_singleton, forall_eq_or_imp, forall_eq,
    List.not_mem_nil, false_imp_iff, implies_true, and_true] at hc
  obtain ⟨h1, h2, h3, h4, ⟨h5, h6⟩, ⟨h7, h8⟩, ⟨h9, h10⟩, ⟨h11, h12⟩, ⟨h13, h14⟩, h15, h16⟩ := hc
  refine ⟨fun k => ?_, ?_, ?_, ?_, ?_, ?_, ?_, ?_, ?_, ?_, ?_, ?_, ?_, ?_, ?_, ?_⟩ <;>
    simp [display_time_check, flag_error, strcat, h1, h2, h3, h4, h5, h6, h7, h8, h9, h10,
      h11, h12, h13, h14, h15, h16]

/-- Witness for C4: the sample record is clean, and clearing its bit 0 flag or
marking its month as a BCD error yields exactly the corresponding tag. -/
theorem display_time_check_single_error_witness :
    display_time_check demo_dt = (false, "") ∧
      display_time_check { demo_dt with bit0_ok := false } = (true, "bit0_error ") ∧
      display_time_check { demo_dt with month_status := eDT_value.eval_bcd } =
        (true, "date_bcd_error ") :=
  have h := display_time_check_single_error demo_dt (by decide)
  ⟨by decide, h.2.1, h.2.2.2.2.2.2.2.2.2.2.2.2.2.2.1⟩

theorem land_two_pow_eq_iff (x k : Nat) : x &&& 2 ^ k = 2 ^ k ↔ x.testBit k = true := by
  constructor
  · intro h
    have := congrArg (fun y => Nat.testBit y k) h
    simpa [Nat.testBit_two_pow_self] using this
  · intro h
    apply Nat.eq_of_testBit_eq
    intro i
    by_cases hi : k = i
    · subst hi; simp [h, Nat.testBit_two_pow_self]
    · simp [Nat.testBit_two_pow, hi]

theorem land_one_iff (x : Nat) : x &&& 1 = 1 ↔ x.testBit 0 = true := land_two_pow_eq_iff x 0

theorem land_two_iff (x : Nat) : x &&& 2 = 2 ↔ x.testBit 1 = true := land_two_pow_eq_iff x 1

theorem land_four_iff (x : Nat) : x &&& 4 = 4 ↔ x.testBit 2 = true := land_two_pow_eq_iff x 2

theorem snprintf_snd (res : Nat → Char) (pos n : Nat) (s : String) :
    (snprintf res pos n s).2 = s.length := by
  unfold snprintf; split <;> rfl

theorem reg1n_length : reg1n.length = 20 := by decide

theorem reg1m_length : reg1m.length = 22 := by decide

theorem reg1s_length : reg1s.length = 25 := by decide

theorem separator_length : ", ".length = 2 := by decide

theorem get_region_name_of_consistent (res : Nat → Char) (alarm : alm) (h : consistent alarm) :
    get_region_name res alarm = ", ".intercalate (label_groups (alarm.region 0).r1) := by
  obtain ⟨h1, h2⟩ := h
  unfold get_region_name label_groups
  rw [if_neg (by simp [h1, h2])]
  simp only [← land_one_iff, ← land_two_iff, ← land_four_iff]
  by_cases b0 : (alarm.region 0).r1 &&& 1 = 1 <;>
  by_cases b1 : (alarm.region 0).r1 &&& 2 = 2 <;>
  by_cases b2 : (alarm.region 0).r1 &&& 4 = 4 <;>
  simp only [b0, b1, b2, if_true, if_false, snprintf_snd, reg1n_length, reg1m_length,
    reg1s_length, separator_length, sizeof_res, true_and, Nat.zero_add, Nat.reduceAdd,
    Nat.reduceSub, Nat.reduceLT, Bool.false_eq_true, false_and, Nat.sub_zero,
    List.append_nil, List.nil_append, List.singleton_append, List.cons_append] <;> rfl

theorem intercalate_label_groups_ne (r1 : Nat) :
    ", ".intercalate (label_groups r1) ≠ "(inconsistent)" := by
  unfold label_groups
  cases r1.testBit 0 <;> cases r1.testBit 1 <;> cases r1.testBit 2 <;> decide

theorem intercalate_label_groups_length (r1 : Nat) :
    (", ".intercalate (label_groups r1)).length ≤ 71 := by
  unfold label_groups
  cases r1.testBit 0 <;> cases r1.testBit 1 <;> cases r1.testBit 2 <;> decide

/-- Claim C5. Consistency check of `get_region_name`: the label is the literal
"(inconsistent)" if and only if the two halves differ in `r1` or in `ps`; a record
with `r1 = 1` in both halves and equal `ps` is not rendered as "(inconsistent)", a
record with `r1 = 1` in half 0 and `r1 = 2` in half 1 is. -/
theorem get_region_name_inconsistent_iff (res : Nat → Char) (alarm : alm) :
    (get_region_name res alarm = "(inconsistent)" ↔
      ((alarm.region 0).r1 ≠ (alarm.region 1).r1 ∨
        (alarm.parity 0).ps ≠ (alarm.parity 1).ps)) ∧
    (∀ a b c d e f ps pl ql : Nat,
      get_region_name res (alm_of ⟨1, a, b, c⟩ ⟨1, d, e, f⟩ ⟨ps, pl⟩ ⟨ps, ql⟩) ≠
        "(inconsistent)") ∧
    (∀ a b c d e f ps pl qs ql : Nat,
      get_region_name res (alm_of ⟨1, a, b, c⟩ ⟨2, d, e, f⟩ ⟨ps, pl⟩ ⟨qs, ql⟩) =
        "(inconsistent)") := by
  have key : ∀ al : alm, get_region_name res al = "(inconsistent)" ↔
      ((al.region 0).r1 ≠ (al.region 1).r1 ∨ (al.parity 0).ps ≠ (al.parity 1).ps) := by
    intro al
    constructor
    · intro h
      by_contra hc
      have hcons : consistent al := by
        unfold consistent
        constructor
        · by_contra h1; exact hc (Or.inl h1)
        · by_contra h2; exact hc (Or.inr h2)
      rw [get_region_name_of_consistent res al hcons] at h
      exact intercalate_label_groups_ne _ h
    · intro h
      unfold get_region_name
      rw [if_pos h]
  refine ⟨key alarm, ?_, ?_⟩
  · intro a b c d e f ps pl ql
    rw [Ne, key]
    simp [alm_of]
  · intro a b c d e f ps pl qs ql
    rw [key]
    simp [alm_of]

/-- Claim C9. Label composition of `get_region_name`: for a consistent record the label
is the three group strings selected by bits 0, 1 and 2 of `region[0].r1`, in that
order, joined by ", "; it is empty when none of the three bits is set, and it is the
full, untruncated text for each of the eight bit combinations (at most 71 characters,
well inside the 256-byte buffer). -/
theorem get_region_name_label (res : Nat → Char) (alarm : alm) (h : consistent alarm) :
    get_region_name res alarm = ", ".intercalate (label_groups (alarm.region 0).r1) ∧
    get_region_name res alarm =
      (match (alarm.region 0).r1.testBit 0, (alarm.region 0).r1.testBit 1,
          (alarm.region 0).r1.testBit 2 with
        | false, false, false => ""
        | true, false, false => "SWH, HH, NS, BR, MVP"
        | false, true, false => "NRW, SA, BRA, B, TH, S"
        | true, true, false => "SWH, HH, NS, BR, MVP, NRW, SA, BRA, B, TH, S"
        | false, false, true => "RP, SAA, HS, BW, BYN, BYS"
        | true, false, true => "SWH, HH, NS, BR, MVP, RP, SAA, HS, BW, BYN, BYS"
        | false, true, true => "NRW, SA, BRA, B, TH, S, RP, SAA, HS, BW, BYN, BYS"
        | true, true, true =>
          "SWH, HH, NS, BR, MVP, NRW, SA, BRA, B, TH, S, RP, SAA, HS, BW, BYN, BYS") ∧
    (get_region_name res alarm).length ≤ 71 ∧
    (get_region_name res alarm).length < sizeof_res := by
  have e := get_region_name_of_consistent res alarm h
  have hl := intercalate_label_groups_length (alarm.region 0).r1
  refine ⟨e, ?_, by rw [e]; exact hl, by rw [e]; unfold sizeof_res; omega⟩
  rw [e]
  unfold label_groups
  cases (alarm.region 0).r1.testBit 0 <;> cases (alarm.region 0).r1.testBit 1 <;>
    cases (alarm.region 0).r1.testBit 2 <;> decide

/-- Witness for C9: the sample record is consistent and renders to groups A and C
joined by one separator. -/
theorem get_region_name_label_witness :
    consistent demo_alarm ∧
      get_region_name demo_res demo_alarm =
        "SWH, HH, NS, BR, MVP, RP, SAA, HS, BW, BYN, BYS" :=
  have hc : consistent demo_alarm := ⟨rfl, rfl⟩
  ⟨hc, (get_region_name_label demo_res demo_alarm hc).2.1⟩

/-- Counterexample to claim C6: no single stride (28 or any other) relates the two
halves. The buffer with a single 1 at index 6 forces the stride 6 (half 1 reads `r1`
there), the buffer with a single 1 at index 26 forces the stride 14 (half 1 reads
`r2` there). In particular, for the stride 28 and the buffer with a single 1 at
index 6, `r1` of half 1 is 1 while the half-0 extraction on the shifted buffer
gives 0. -/
theorem decode_alarm_no_single_stride :
    (¬ ∃ s, single_stride s) ∧
      ((decode_alarm (unit_buf 6) (alm_of_r1 0)).region 1).r1 = 1 ∧
      ((decode_alarm_body (shift_buf (unit_buf 6) 28) 0 (alm_of_r1 0)).region 0).r1 = 0 := by
  refine ⟨?_, by decide, by decide⟩
  rintro ⟨s, hs⟩
  have h6 := (hs (unit_buf 6) (alm_of_r1 0) (by intro k; unfold unit_buf; split <;> omega)).1
  have h26 := (hs (unit_buf 26) (alm_of_r1 0) (by intro k; unfold unit_buf; split <;> omega)).1
  have e6 := congrArg Region.r1 h6
  have e26 := congrArg Region.r2 h26
  simp [decode_alarm, decode_alarm_body, shift_buf, unit_buf, u32] at e6 e26
  split_ifs at e6 e26 <;> omega

/-- Claim C6, amended. The two halves of `decode_alarm` are related by two strides, not
one: `r1` and `ps` of half 1 are the half-0 extraction on the buffer shifted by 6,
while `r2`, `r3`, `r4` and `pl` of half 1 are the half-0 extraction on the buffer
shifted by 14, with the same binary weights. -/
theorem decode_alarm_two_strides (civbuf : Nat → Nat) (alarm : alm) :
    ((decode_alarm civbuf alarm).region 1).r1 =
        ((decode_alarm_body (shift_buf civbuf 6) 0 alarm).region 0).r1 ∧
    ((decode_alarm civbuf alarm).parity 1).ps =
        ((decode_alarm_body (shift_buf civbuf 6) 0 alarm).parity 0).ps ∧
    ((decode_alarm civbuf alarm).region 1).r2 =
        ((decode_alarm_body (shift_buf civbuf 14) 0 alarm).region 0).r2 ∧
    ((decode_alarm civbuf alarm).region 1).r3 =
        ((decode_alarm_body (shift_buf civbuf 14) 0 alarm).region 0).r3 ∧
    ((decode_alarm civbuf alarm).region 1).r4 =
        ((decode_alarm_body (shift_buf civbuf 14) 0 alarm).region 0).r4 ∧
    ((decode_alarm civbuf alarm).parity 1).pl =
        ((decode_alarm_body (shift_buf civbuf 14) 0 alarm).parity 0).pl := by
  simp [decode_alarm, decode_alarm_body, shift_buf]

/-- Claim C10. All-zero payload: on a buffer whose 56 entries are all 0, `decode_alarm`
sets `r1`, `r2`, `r3`, `r4`, `ps` and `pl` of both halves to 0, and `get_region_name`
of that record is not "(inconsistent)" but the empty string. -/
theorem decode_alarm_all_zero (civbuf : Nat → Nat) (alarm : alm) (res : Nat → Char)
    (hz : ∀ k, k < 56 → civbuf k = 0) :
    (∀ i, (decode_alarm civbuf alarm).region i = ⟨0, 0, 0, 0⟩ ∧
        (decode_alarm civbuf alarm).parity i = ⟨0, 0⟩) ∧
      get_region_name res (decode_alarm civbuf alarm) ≠ "(inconsistent)" ∧
      get_region_name res (decode_alarm civbuf alarm) = "" := by
  have hfields : ∀ i, (decode_alarm civbuf alarm).region i = ⟨0, 0, 0, 0⟩ ∧
      (decode_alarm civbuf alarm).parity i = ⟨0, 0⟩ := by
    intro i
    fin_cases i <;>
      simp [decode_alarm, decode_alarm_body, u32, hz]
  have hcons : consistent (decode_alarm civbuf alarm) := by
    unfold consistent
    rw [(hfields 0).1, (hfields 1).1, (hfields 0).2, (hfields 1).2]
    exact ⟨rfl, rfl⟩
  have e := get_region_name_of_consistent res _ hcons
  rw [(hfields 0).1] at e
  have e0 : get_region_name res (decode_alarm civbuf alarm) = "" := by
    rw [e]; decide
  refine ⟨hfields, ?_, e0⟩
  rw [e0]; decide

/-- Witness for C10: the all-zero buffer decodes to all-zero codes and renders to the
empty label. -/
theorem decode_alarm_all_zero_witness :
    (∀ k, k < 56 → zero_buf k = 0) ∧
      (∀ i, (decode_alarm zero_buf demo_alarm).region i = ⟨0, 0, 0, 0⟩ ∧
        (decode_alarm zero_buf demo_alarm).parity i = ⟨0, 0⟩) ∧
      get_region_name demo_res (decode_alarm zero_buf demo_alarm) ≠ "(inconsistent)" ∧
      get_region_name demo_res (decode_alarm zero_buf demo_alarm) = "" :=
  ⟨fun _ _ => rfl, decode_alarm_all_zero zero_buf demo_alarm demo_res (fun _ _ => rfl)⟩

/-- Claim C12. Initial state produced by `init_shm`: for a unit in 0..3, no segment
attached yet and any prior content of the segment, the segment id is the result of
`shmget` for the key `0x4e545030 + unit` (which fits an `int`, and differs for
different units); when both OS calls succeed the status is 0, the segment is attached
and holds `mode = 1`, `precision = -10`, `nsamples = 3`, `valid = 0`, `count = 0` and
zero in every timestamp field and in `leap`; when an OS call fails the status is the
(non-zero) error number and no segment is attached. -/
theorem init_shm_initial_state (os : ShmOS) (st : State)
    (hunit : 0 ≤ st.shm_unit ∧ st.shm_unit ≤ 3) (hnull : st.shm = false) :
    (init_shm os st).2.shmid = os.shmget (0x4e545030 + st.shm_unit) ∧
    0x4e545030 + st.shm_unit < 2147483648 ∧
    (∀ other : State, 0x4e545030 + st.shm_unit = 0x4e545030 + other.shm_unit →
      st.shm_unit = other.shm_unit) ∧
    (init_ok os st →
      (init_shm os st).1 = 0 ∧ (init_shm os st).2.shm = true ∧
      (init_shm os st).2.seg =
        { mode := 1, count := 0, clockTimeStampSec := 0, clockTimeStampUSec := 0,
          receiveTimeStampSec := 0, receiveTimeStampUSec := 0, leap := 0,
          precision := -10, nsamples := 3, valid := 0, clockTimeStampNSec := 0,
          receiveTimeStampNSec := 0, dummy := [0, 0, 0, 0, 0, 0, 0, 0] }) ∧
    (init_fails os st → errno_set os →
      (init_shm os st).1 ≠ 0 ∧ (init_shm os st).2.shm = false ∧
      (init_shm os st).2.seg = st.seg) := by
  obtain ⟨h0, h3⟩ := hunit
  refine ⟨?_, by omega, ?_, ?_, ?_⟩
  · unfold init_shm
    simp only
    split_ifs <;> rfl
  · intro other h; omega
  · rintro ⟨h1, h2⟩
    simp [init_shm, h1, h2, memset_zero]
  · rintro hf ⟨e1, e2⟩
    unfold init_fails at hf
    unfold init_shm
    simp only
    by_cases h1 : os.shmget (0x4e545030 + st.shm_unit) = -1
    · simp only [h1, if_true]
      exact ⟨by omega, hnull, trivial⟩
    · have h2 : os.shmat_ok = false := by
        rcases hf with hf | hf
        · exact absurd hf h1
        · exact hf
      simp only [h1, if_false, h2, Bool.not_false, if_true]
      exact ⟨by omega, trivial, trivial⟩

/-- Witness for C12: the sample statics select unit 2 with nothing attached, and both
OS calls of the sample OS succeed. -/
theorem init_shm_initial_state_witness :
    (0 ≤ demo_state.shm_unit ∧ demo_state.shm_unit ≤ 3) ∧ demo_state.shm = false ∧
      init_ok demo_os demo_state ∧
      (init_shm demo_os demo_state).2.shmid = demo_os.shmget (0x4e545032) ∧
      (init_shm demo_os demo_state).1 = 0 ∧
      (init_shm demo_os demo_state).2.seg.precision = -10 :=
  have hu : 0 ≤ demo_state.shm_unit ∧ demo_state.shm_unit ≤ 3 := by decide
  have hok : init_ok demo_os demo_state := ⟨by decide, rfl⟩
  have h := init_shm_initial_state demo_os demo_state hu rfl
  ⟨hu, rfl, hok, h.1, (h.2.2.2.1 hok).1, by rw [(h.2.2.2.1 hok).2.2]⟩

theorem update_shm_statics (env : UpdateEnv) (st : State) (dcf_time : tm) (leap_second : Int) :
    (update_shm env st dcf_time leap_second).shm_unit = st.shm_unit ∧
      (update_shm env st dcf_time leap_second).shmid = st.shmid ∧
      (update_shm env st dcf_time leap_second).shm = st.shm :=
  ⟨rfl, rfl, rfl⟩

theorem display_time_statics (env : UpdateEnv) (st : State) (dt : DT_result) (time : tm) :
    (display_time env st dt time).2.shm_unit = st.shm_unit ∧
      (display_time env st dt time).2.shmid = st.shmid ∧
      (display_time env st dt time).2.shm = st.shm := by
  unfold display_time
  split
  · exact ⟨rfl, rfl, rfl⟩
  · exact update_shm_statics env st time _

theorem mainloop_statics (minutes : List (UpdateEnv × DT_result × tm)) (st : State) :
    (mainloop minutes st).shm_unit = st.shm_unit ∧ (mainloop minutes st).shmid = st.shmid ∧
      (mainloop minutes st).shm = st.shm := by
  induction minutes generalizing st with
  | nil => exact ⟨rfl, rfl, rfl⟩
  | cons m ms ih =>
    have h := display_time_statics m.1 st m.2.1 m.2.2
    have h2 := ih (display_time m.1 st m.2.1 m.2.2).2
    simp only [mainloop, List.foldl_cons] at h2 ⊢
    exact ⟨h2.1.trans h.1, h2.2.1.trans h.2.1, h2.2.2.trans h.2.2⟩

theorem cleanup_shm_statics (shmdt : Int) (st : State) :
    (cleanup_shm shmdt st).2.shm_unit = st.shm_unit ∧
      (cleanup_shm shmdt st).2.shmid = st.shmid := by
  unfold cleanup_shm
  split <;> exact ⟨rfl, rfl⟩

theorem init_shm_statics (os : ShmOS) (st : State) :
    (init_shm os st).2.shm_unit = st.shm_unit ∧
      (init_shm os st).2.shmid = os.shmget (0x4e545030 + st.shm_unit) := by
  unfold init_shm
  simp only
  split_ifs <;> exact ⟨rfl, rfl⟩

theorem read_shm_unit_eq (value : Option Int) (prior : shmTime) :
    read_shm_unit value (startup prior) = { startup prior with shm_unit := clamp_unit value } := by
  cases value with
  | none => rfl
  | some v =>
    simp only [read_shm_unit, clamp_unit]
    by_cases h : 0 ≤ v ∧ v ≤ 3
    · have h2 : ¬ (v < 0 ∨ v > 3) := by omega
      rw [if_neg h2, if_pos h]
    · have h2 : v < 0 ∨ v > 3 := by omega
      rw [if_pos h2, if_neg h]

/-- Claim C13. Unit clamping in `main`: with a readable configuration, the unit used is
the configured value when that is in 0..3 and 0 for any other value and for an absent
field; it is always in 0..3, it is the unit the statics hold from then on, and it is
the unit `init_shm` computes the key from when the Decode Engine initialised. -/
theorem main_unit_clamped (env : MainEnv) (value : Option Int) (hc : env.config = some value) :
    (read_shm_unit value (startup env.prior)).shm_unit = clamp_unit value ∧
    (∀ v : Int, clamp_unit (some v) = if 0 ≤ v ∧ v ≤ 3 then v else 0) ∧
    clamp_unit none = 0 ∧
    (0 ≤ clamp_unit value ∧ clamp_unit value ≤ 3) ∧
    (main env).2.shm_unit = clamp_unit value ∧
    (env.set_mode_live = 0 →
      (main env).2.shmid = env.os.shmget (0x4e545030 + clamp_unit value)) := by
  have hr := read_shm_unit_eq value env.prior
  have hrange : 0 ≤ clamp_unit value ∧ clamp_unit value ≤ 3 := by
    cases value with
    | none => simp [clamp_unit]
    | some v =>
      simp only [clamp_unit]
      split_ifs with h
      · exact h
      · omega
  have hi := init_shm_statics env.os (read_shm_unit value (startup env.prior))
  have hm := mainloop_statics env.minutes (init_shm env.os (read_shm_unit value (startup env.prior))).2
  have hcl := cleanup_shm_statics env.shmdt
    (mainloop env.minutes (init_shm env.os (read_shm_unit value (startup env.prior))).2)
  have hu : (read_shm_unit value (startup env.prior)).shm_unit = clamp_unit value := by
    rw [hr]
  refine ⟨hu, fun v => rfl, rfl, hrange, ?_, ?_⟩
  · unfold main
    simp only [hc]
    split_ifs
    · exact hu
    · exact hi.1.trans hu
    · exact hcl.1.trans (hm.1.trans (hi.1.trans hu))
  · intro hs
    unfold main
    simp only [hc, hs]
    rw [hu] at hi
    split_ifs
    · exact absurd rfl ‹_›
    · exact hi.2
    · exact hcl.2.trans (hm.2.1.trans hi.2)

/-- Witness for C13: the sample run configures unit 2 and uses the key of unit 2; a
configured 7 is replaced by 0. -/
theorem main_unit_clamped_witness :
    demo_main_env.config = some (some 2) ∧ (main demo_main_env).2.shm_unit = 2 ∧
      (main demo_main_env).2.shmid = demo_main_env.os.shmget 0x4e545032 ∧
      demo_main_env_engine.config = some (some 7) ∧
      (main demo_main_env_engine).2.shm_unit = 0 :=
  have h := main_unit_clamped demo_main_env (some 2) rfl
  have h2 := main_unit_clamped demo_main_env_engine (some 7) rfl
  ⟨rfl, h.2.2.2.2.1, h.2.2.2.2.2 rfl, rfl, h2.2.2.2.2.1⟩

/-- Claim C14. Cleanup resilience of `cleanup_shm`: whatever `shmdt` returns, with a
segment attached the call ends with `valid = 0`, every other field of the slot and the
other statics unchanged and the handle cleared, so that a following `update_shm`
performs no store; a detach failure is logged and nothing more; with no segment
attached the state is unchanged. -/
theorem cleanup_shm_resilient (shmdt : Int) (st : State) :
    (cleanup_shm shmdt st).2 =
        (if st.shm then { st with seg := { st.seg with valid := 0 }, shm := false } else st) ∧
      (cleanup_shm shmdt st).2.shm = false ∧
      (∀ (env : UpdateEnv) (dcf_time : tm) (leap_second : Int),
        update_shm_stores env (cleanup_shm shmdt st).2 dcf_time leap_second = [] ∧
          update_shm env (cleanup_shm shmdt st).2 dcf_time leap_second =
            (cleanup_shm shmdt st).2) ∧
      (Event.log_error "Failed to detach SHM segment: %s" [] ∈ (cleanup_shm shmdt st).1 ↔
        (st.shm = true ∧ shmdt = -1)) ∧
      Event.log_info "NTPSec SHM cleanup complete" [] ∈ (cleanup_shm shmdt st).1 := by
  have hshm : (cleanup_shm shmdt st).2.shm = false := by
    unfold cleanup_shm
    by_cases h : st.shm = true
    · simp [h]
    · simp only [h]
      simpa using h
  refine ⟨?_, hshm, ?_, ?_, ?_⟩
  · unfold cleanup_shm
    by_cases h : st.shm = true <;> simp [h]
  · intro env dcf_time leap_second
    have hs : update_shm_stores env (cleanup_shm shmdt st).2 dcf_time leap_second = [] := by
      simp [update_shm_stores, hshm]
    exact ⟨hs, by simp [update_shm, hs, run_stores]⟩
  · unfold cleanup_shm
    by_cases h : st.shm = true <;> by_cases h2 : shmdt = -1 <;> simp [h, h2]
  · unfold cleanup_shm
    by_cases h : st.shm = true <;> simp [h]

/-- Counterexample to claim C15: statuses of different failure classes can coincide.
A Decode Engine initialiser failing with the code 13 and a `shmget` failing with
`errno = 13` both make `main` return 13; an initialiser failing with the code 66
returns the status of an unreadable configuration. -/
theorem main_status_not_distinct :
    failure_class demo_main_env_engine = some FailureClass.decode_engine ∧
      failure_class demo_main_env_denied = some FailureClass.shared_memory ∧
      errno_set demo_main_env_denied.os ∧
      (main demo_main_env_engine).1 = 13 ∧ (main demo_main_env_denied).1 = 13 ∧
      failure_class demo_main_env_engine66 = some FailureClass.decode_engine ∧
      failure_class demo_main_env_noconfig = some FailureClass.configuration ∧
      (main demo_main_env_engine66).1 = 66 ∧ (main demo_main_env_noconfig).1 = 66 := by
  refine ⟨by decide, by decide, ⟨by decide, by decide⟩, by decide, by decide, by decide,
    by decide, by decide, by decide⟩

/-- Claim C15, amended. Each startup failure class makes `main` return a non-zero status:
`EX_NOINPUT` (66) when the configuration cannot be read, the code reported by the
Decode Engine initialiser when that fails, and, when the segment cannot be created or
attached, the value of `errno` that `init_shm` returns: the one read after the failing
`shmget` if `shmget` failed for the configured unit, otherwise the one read after the
failing `shmat`. Nothing keeps the statuses of different classes apart. -/
theorem main_startup_failure_status (env : MainEnv) (c : FailureClass)
    (hclass : failure_class env = some c) (herrno : errno_set env.os) :
    (main env).1 ≠ 0 ∧
      (c = FailureClass.configuration → (main env).1 = EX_NOINPUT ∧ EX_NOINPUT = 66) ∧
      (c = FailureClass.decode_engine → (main env).1 = env.set_mode_live) ∧
      (c = FailureClass.shared_memory → ∀ value, env.config = some value →
        (main env).1 =
          if env.os.shmget (0x4e545030 + clamp_unit value) = -1 then env.os.errno_shmget
          else env.os.errno_shmat) := by
  obtain ⟨e1, e2⟩ := herrno
  unfold failure_class at hclass
  cases hcfg : env.config with
  | none =>
    simp only [hcfg] at hclass
    have hc : c = FailureClass.configuration := by
      injection hclass with h; exact h.symm
    subst hc
    simp [main, hcfg, EX_NOINPUT]
  | some value =>
    simp only [hcfg] at hclass
    by_cases hs : env.set_mode_live = 0
    · simp only [hs, ne_eq, not_true_eq_false, if_false] at hclass
      by_cases hf : init_fails env.os (read_shm_unit value (startup env.prior))
      · simp only [hf, if_true] at hclass
        have hc : c = FailureClass.shared_memory := by
          injection hclass with h; exact h.symm
        subst hc
        have hunit : (read_shm_unit value (startup env.prior)).shm_unit = clamp_unit value := by
          rw [read_shm_unit_eq]
        have hstatus : (init_shm env.os (read_shm_unit value (startup env.prior))).1 =
            if env.os.shmget (0x4e545030 + clamp_unit value) = -1 then env.os.errno_shmget
            else env.os.errno_shmat := by
          unfold init_fails at hf
          rw [hunit] at hf
          unfold init_shm
          simp only [hunit]
          by_cases h1 : env.os.shmget (0x4e545030 + clamp_unit value) = -1
          · simp [h1]
          · have h2 : env.os.shmat_ok = false := by
              rcases hf with hf | hf
              · exact absurd hf h1
              · exact hf
            simp [h1, h2]
        have hne : (init_shm env.os (read_shm_unit value (startup env.prior))).1 ≠ 0 := by
          rw [hstatus]; split <;> omega
        have hmain : (main env).1 =
            (init_shm env.os (read_shm_unit value (startup env.prior))).1 := by
          simp [main, hcfg, hs, hne]
        rw [hmain]
        refine ⟨hne, by simp, by simp, ?_⟩
        intro _ value2 hv
        have hval : value2 = value := by
          injection hv with h; exact h.symm
        rw [hval]
        exact hstatus
      · simp [hf] at hclass
    · simp only [hs, ne_eq, not_false_eq_true, if_true] at hclass
      have hc : c = FailureClass.decode_engine := by
        injection hclass with h; exact h.symm
      subst hc
      simp [main, hcfg, hs]

/-- Witness for C15 (amended): the sample run whose `shmget` is denied returns the
error number 13 read after `shmget`; the sample run whose `shmat` fails returns the
error number 22 read after `shmat`. -/
theorem main_startup_failure_status_witness :
    failure_class demo_main_env_denied = some FailureClass.shared_memory ∧
      errno_set demo_main_env_denied.os ∧ (main demo_main_env_denied).1 ≠ 0 ∧
      (main demo_main_env_denied).1 = 13 ∧
      failure_class demo_main_env_unattached = some FailureClass.shared_memory ∧
      errno_set demo_main_env_unattached.os ∧ (main demo_main_env_unattached).1 = 22 :=
  have hc : failure_class demo_main_env_denied = some FailureClass.shared_memory := by decide
  have he : errno_set demo_main_env_denied.os := ⟨by decide, by decide⟩
  have hc2 : failure_class demo_main_env_unattached = some FailureClass.shared_memory := by
    decide
  have he2 : errno_set demo_main_env_unattached.os := ⟨by decide, by decide⟩
  have h := main_startup_failure_status demo_main_env_denied _ hc he
  have h2 := main_startup_failure_status demo_main_env_unattached _ hc2 he2
  ⟨hc, he, h.1, h.2.2.2 rfl none rfl, hc2, he2, h2.2.2.2 rfl (some 1) rfl⟩

theorem decode_alarm_region_zero (civbuf : Nat → Nat) (alarm : alm) :
    (decode_alarm civbuf alarm).region 0 =
      { r1 := u32 (civbuf 0 + 2 * civbuf 1 + 4 * civbuf 3),
        r2 := u32 (civbuf 12 + 2 * civbuf 13 + 4 * civbuf 14),
        r3 := u32 (civbuf 15 + 2 * civbuf 16 + 4 * civbuf 17),
        r4 := u32 (civbuf 19 + 2 * civbuf 20 + 4 * civbuf 21 + 8 * civbuf 23) } := rfl

theorem decode_alarm_region_one (civbuf : Nat → Nat) (alarm : alm) :
    (decode_alarm civbuf alarm).region 1 =
      { r1 := u32 (civbuf 6 + 2 * civbuf 7 + 4 * civbuf 9),
        r2 := u32 (civbuf 26 + 2 * civbuf 27 + 4 * civbuf 28),
        r3 := u32 (civbuf 29 + 2 * civbuf 30 + 4 * civbuf 31),
        r4 := u32 (civbuf 33 + 2 * civbuf 34 + 4 * civbuf 35 + 8 * civbuf 37) } := rfl

theorem decode_alarm_parity_zero (civbuf : Nat → Nat) (alarm : alm) :
    (decode_alarm civbuf alarm).parity 0 =
      { ps := u32 (civbuf 2 + 2 * civbuf 4 + 4 * civbuf 5),
        pl := u32 (civbuf 18 + 2 * civbuf 22 + 4 * civbuf 24 + 8 * civbuf 25) } := rfl

theorem decode_alarm_parity_one (civbuf : Nat → Nat) (alarm : alm) :
    (decode_alarm civbuf alarm).parity 1 =
      { ps := u32 (civbuf 8 + 2 * civbuf 10 + 4 * civbuf 11),
        pl := u32 (civbuf 32 + 2 * civbuf 36 + 4 * civbuf 38 + 8 * civbuf 39) } := rfl

theorem bits_at_le_one (idx : List Nat) (v k : Nat) : bits_at idx v k ≤ 1 := by
  unfold bits_at
  split
  · omega
  · omega

theorem attained_three (x y z v : Nat) (hv : v ≤ 7) (hxy : x ≠ y) (hxz : x ≠ z) (hyz : y ≠ z) :
    u32 (bits_at [x, y, z] v x + 2 * bits_at [x, y, z] v y + 4 * bits_at [x, y, z] v z) = v := by
  have bxy : (x == y) = false := by simpa using hxy
  have bxz : (x == z) = false := by simpa using hxz
  have byz : (y == z) = false := by simpa using hyz
  simp [bits_at, u32, List.indexOf_cons, bxy, bxz, byz]
  omega

theorem attained_four (x y z w v : Nat) (hv : v ≤ 15) (hxy : x ≠ y) (hxz : x ≠ z)
    (hxw : x ≠ w) (hyz : y ≠ z) (hyw : y ≠ w) (hzw : z ≠ w) :
    u32 (bits_at [x, y, z, w] v x + 2 * bits_at [x, y, z, w] v y +
      4 * bits_at [x, y, z, w] v z + 8 * bits_at [x, y, z, w] v w) = v := by
  have bxy : (x == y) = false := by simpa using hxy
  have bxz : (x == z) = false := by simpa using hxz
  have bxw : (x == w) = false := by simpa using hxw
  have byz : (y == z) = false := by simpa using hyz
  have byw : (y == w) = false := by simpa using hyw
  have bzw : (z == w) = false := by simpa using hzw
  simp [bits_at, u32, List.indexOf_cons, bxy, bxz, bxw, byz, byw, bzw]
  omega

/-- Claim C11. Code widths of `decode_alarm`: on a buffer of 0/1 entries, in both halves
`r1`, `r2`, `r3` and `ps` are at most 7 and `r4` and `pl` are at most 15; and in both
halves every value of 0..7, respectively 0..15, is the code of some 0/1 buffer. -/
theorem decode_alarm_code_widths (civbuf : Nat → Nat) (alarm : alm)
    (hbits : ∀ k, civbuf k ≤ 1) :
    (∀ i, ((decode_alarm civbuf alarm).region i).r1 ≤ 7 ∧
        ((decode_alarm civbuf alarm).region i).r2 ≤ 7 ∧
        ((decode_alarm civbuf alarm).region i).r3 ≤ 7 ∧
        ((decode_alarm civbuf alarm).region i).r4 ≤ 15 ∧
        ((decode_alarm civbuf alarm).parity i).ps ≤ 7 ∧
        ((decode_alarm civbuf alarm).parity i).pl ≤ 15) ∧
    (∀ (i : Fin 2) (v : Nat), v ≤ 7 →
      (∃ b : Nat → Nat, (∀ k, b k ≤ 1) ∧ ((decode_alarm b alarm).region i).r1 = v) ∧
      (∃ b : Nat → Nat, (∀ k, b k ≤ 1) ∧ ((decode_alarm b alarm).region i).r2 = v) ∧
      (∃ b : Nat → Nat, (∀ k, b k ≤ 1) ∧ ((decode_alarm b alarm).region i).r3 = v) ∧
      (∃ b : Nat → Nat, (∀ k, b k ≤ 1) ∧ ((decode_alarm b alarm).parity i).ps = v)) ∧
    (∀ (i : Fin 2) (v : Nat), v ≤ 15 →
      (∃ b : Nat → Nat, (∀ k, b k ≤ 1) ∧ ((decode_alarm b alarm).region i).r4 = v) ∧
      (∃ b : Nat → Nat, (∀ k, b k ≤ 1) ∧ ((decode_alarm b alarm).parity i).pl = v)) := by
  refine ⟨?_, ?_, ?_⟩
  · intro i
    have h := hbits
    fin_cases i
    · simp only [Fin.zero_eta, decode_alarm_region_zero, decode_alarm_parity_zero, u32]
      have := h 0; have := h 1; have := h 3; have := h 12; have := h 13; have := h 14
      have := h 15; have := h 16; have := h 17; have := h 19; have := h 20; have := h 21
      have := h 23; have := h 2; have := h 4; have := h 5; have := h 18; have := h 22
      have := h 24; have := h 25
      refine ⟨?_, ?_, ?_, ?_, ?_, ?_⟩ <;> omega
    · simp only [Fin.mk_one, decode_alarm_region_one, decode_alarm_parity_one, u32]
      have := h 6; have := h 7; have := h 9; have := h 26; have := h 27; have := h 28
      have := h 29; have := h 30; have := h 31; have := h 33; have := h 34; have := h 35
      have := h 37; have := h 8; have := h 10; have := h 11; have := h 32; have := h 36
      have := h 38; have := h 39
      refine ⟨?_, ?_, ?_, ?_, ?_, ?_⟩ <;> omega
  · intro i v hv
    fin_cases i
    · simp only [Fin.zero_eta, decode_alarm_region_zero, decode_alarm_parity_zero]
      exact ⟨⟨bits_at (r1_reads 0) v, bits_at_le_one _ _,
          attained_three 0 1 3 v hv (by decide) (by decide) (by decide)⟩,
        ⟨bits_at (r2_reads 0) v, bits_at_le_one _ _,
          attained_three 12 13 14 v hv (by decide) (by decide) (by decide)⟩,
        ⟨bits_at (r3_reads 0) v, bits_at_le_one _ _,
          attained_three 15 16 17 v hv (by decide) (by decide) (by decide)⟩,
        ⟨bits_at (ps_reads 0) v, bits_at_le_one _ _,
          attained_three 2 4 5 v hv (by decide) (by decide) (by decide)⟩⟩
    · simp only [Fin.mk_one, decode_alarm_region_one, decode_alarm_parity_one]
      exact ⟨⟨bits_at (r1_reads 1) v, bits_at_le_one _ _,
          attained_three 6 7 9 v hv (by decide) (by decide) (by decide)⟩,
        ⟨bits_at (r2_reads 1) v, bits_at_le_one _ _,
          attained_three 26 27 28 v hv (by decide) (by decide) (by decide)⟩,
        ⟨bits_at (r3_reads 1) v, bits_at_le_one _ _,
          attained_three 29 30 31 v hv (by decide) (by decide) (by decide)⟩,
        ⟨bits_at (ps_reads 1) v, bits_at_le_one _ _,
          attained_three 8 10 11 v hv (by decide) (by decide) (by decide)⟩⟩
  · intro i v hv
    fin_cases i
    · simp only [Fin.zero_eta, decode_alarm_region_zero, decode_alarm_parity_zero]
      exact ⟨⟨bits_at (r4_reads 0) v, bits_at_le_one _ _,
          attained_four 19 20 21 23 v hv (by decide) (by decide) (by decide) (by decide)
            (by decide) (by decide)⟩,
        ⟨bits_at (pl_reads 0) v, bits_at_le_one _ _,
          attained_four 18 22 24 25 v hv (by decide) (by decide) (by decide) (by decide)
            (by decide) (by decide)⟩⟩
    · simp only [Fin.mk_one, decode_alarm_region_one, decode_alarm_parity_one]
      exact ⟨⟨bits_at (r4_reads 1) v, bits_at_le_one _ _,
          attained_four 33 34 35 37 v hv (by decide) (by decide) (by decide) (by decide)
            (by decide) (by decide)⟩,
        ⟨bits_at (pl_reads 1) v, bits_at_le_one _ _,
          attained_four 32 36 38 39 v hv (by decide) (by decide) (by decide) (by decide)
            (by decide) (by decide)⟩⟩

/-- Witness for C11: the sample buffer has 0/1 entries; its half-1 code `pl` is 8. -/
theorem decode_alarm_code_widths_witness :
    (∀ k, demo_buf k ≤ 1) ∧ ((decode_alarm demo_buf demo_alarm).parity 1).pl = 8 ∧
      ((decode_alarm demo_buf demo_alarm).parity 1).pl ≤ 15 :=
  have hb : ∀ k, demo_buf k ≤ 1 := fun k => by unfold demo_buf; split <;> omega
  ⟨hb, by decide, ((decode_alarm_code_widths demo_buf demo_alarm hb).1 1).2.2.2.2.2⟩

theorem alm_eq_iff (x y : alm) :
    x = y ↔ x.region 0 = y.region 0 ∧ x.region 1 = y.region 1 ∧
      x.parity 0 = y.parity 0 ∧ x.parity 1 = y.parity 1 := by
  constructor
  · intro h; subst h; exact ⟨rfl, rfl, rfl, rfl⟩
  · rintro ⟨h1, h2, h3, h4⟩
    cases x with
    | mk xr xp =>
      cases y with
      | mk yr yp =>
        have hr : xr = yr := by
          funext i; fin_cases i
          · exact h1
          · exact h2
        have hp : xp = yp := by
          funext i; fin_cases i
          · exact h3
          · exact h4
        rw [hr, hp]

theorem decode_alarm_reads_mem (k : Nat) : k ∈ decode_alarm_reads ↔ k < 40 := by
  constructor
  · intro h
    have hall : ∀ j ∈ decode_alarm_reads, j < 40 := by decide
    exact hall k h
  · intro h
    have hall : ∀ j, j < 40 → j ∈ decode_alarm_reads := by decide
    exact hall k h

theorem decode_alarm_weighted (civbuf : Nat → Nat) (alarm : alm) (i : Fin 2) :
    ((decode_alarm civbuf alarm).region i).r1 = u32 (weighted civbuf (r1_reads i)) ∧
      ((decode_alarm civbuf alarm).region i).r2 = u32 (weighted civbuf (r2_reads i)) ∧
      ((decode_alarm civbuf alarm).region i).r3 = u32 (weighted civbuf (r3_reads i)) ∧
      ((decode_alarm civbuf alarm).region i).r4 = u32 (weighted civbuf (r4_reads i)) ∧
      ((decode_alarm civbuf alarm).parity i).ps = u32 (weighted civbuf (ps_reads i)) ∧
      ((decode_alarm civbuf alarm).parity i).pl = u32 (weighted civbuf (pl_reads i)) := by
  fin_cases i
  · simp only [Fin.zero_eta, decode_alarm_region_zero, decode_alarm_parity_zero, weighted,
      r1_reads, r2_reads, r3_reads, r4_reads, ps_reads, pl_reads, Nat.mul_zero, Nat.add_zero]
    refine ⟨?_, ?_, ?_, ?_, ?_, ?_⟩ <;> (congr 1; omega)
  · simp only [Fin.mk_one, decode_alarm_region_one, decode_alarm_parity_one, weighted,
      r1_reads, r2_reads, r3_reads, r4_reads, ps_reads, pl_reads, Nat.mul_one, Nat.reduceAdd]
    refine ⟨?_, ?_, ?_, ?_, ?_, ?_⟩ <;> (congr 1; omega)

theorem three_bits (x y z p q r : Nat) (hx : x ≤ 1) (hy : y ≤ 1) (hz : z ≤ 1) (hp : p ≤ 1)
    (hq : q ≤ 1) (hr : r ≤ 1) (h : u32 (x + 2 * y + 4 * z) = u32 (p + 2 * q + 4 * r)) :
    x = p ∧ y = q ∧ z = r := by
  unfold u32 at h
  omega

theorem four_bits (x y z w p q r s : Nat) (hx : x ≤ 1) (hy : y ≤ 1) (hz : z ≤ 1) (hw : w ≤ 1)
    (hp : p ≤ 1) (hq : q ≤ 1) (hr : r ≤ 1) (hs : s ≤ 1)
    (h : u32 (x + 2 * y + 4 * z + 8 * w) = u32 (p + 2 * q + 4 * r + 8 * s)) :
    x = p ∧ y = q ∧ z = r ∧ w = s := by
  unfold u32 at h
  omega

theorem decode_alarm_agree (b c : Nat → Nat) (alarm : alm) (hb : ∀ k, b k ≤ 1)
    (hc : ∀ k, c k ≤ 1) (h : decode_alarm b alarm = decode_alarm c alarm) :
    ∀ k, k < 40 → b k = c k := by
  rw [alm_eq_iff] at h
  obtain ⟨h1, h2, h3, h4⟩ := h
  simp only [decode_alarm_region_zero, decode_alarm_region_one, decode_alarm_parity_zero,
    decode_alarm_parity_one, Region.mk.injEq, Parity.mk.injEq] at h1 h2 h3 h4
  obtain ⟨a1, a2, a3, a4⟩ := h1
  obtain ⟨a5, a6, a7, a8⟩ := h2
  obtain ⟨a9, a10⟩ := h3
  obtain ⟨a11, a12⟩ := h4
  obtain ⟨e0, e1, e3⟩ := three_bits _ _ _ _ _ _ (hb 0) (hb 1) (hb 3) (hc 0) (hc 1) (hc 3) a1
  obtain ⟨e12, e13, e14⟩ :=
    three_bits _ _ _ _ _ _ (hb 12) (hb 13) (hb 14) (hc 12) (hc 13) (hc 14) a2
  obtain ⟨e15, e16, e17⟩ :=
    three_bits _ _ _ _ _ _ (hb 15) (hb 16) (hb 17) (hc 15) (hc 16) (hc 17) a3
  obtain ⟨e19, e20, e21, e23⟩ :=
    four_bits _ _ _ _ _ _ _ _ (hb 19) (hb 20) (hb 21) (hb 23) (hc 19) (hc 20) (hc 21) (hc 23) a4
  obtain ⟨e6, e7, e9⟩ := three_bits _ _ _ _ _ _ (hb 6) (hb 7) (hb 9) (hc 6) (hc 7) (hc 9) a5
  obtain ⟨e26, e27, e28⟩ :=
    three_bits _ _ _ _ _ _ (hb 26) (hb 27) (hb 28) (hc 26) (hc 27) (hc 28) a6
  obtain ⟨e29, e30, e31⟩ :=
    three_bits _ _ _ _ _ _ (hb 29) (hb 30) (hb 31) (hc 29) (hc 30) (hc 31) a7
  obtain ⟨e33, e34, e35, e37⟩ :=
    four_bits _ _ _ _ _ _ _ _ (hb 33) (hb 34) (hb 35) (hb 37) (hc 33) (hc 34) (hc 35) (hc 37) a8
  obtain ⟨e2, e4, e5⟩ := three_bits _ _ _ _ _ _ (hb 2) (hb 4) (hb 5) (hc 2) (hc 4) (hc 5) a9
  obtain ⟨e18, e22, e24, e25⟩ :=
    four_bits _ _ _ _ _ _ _ _ (hb 18) (hb 22) (hb 24) (hb 25) (hc 18) (hc 22) (hc 24) (hc 25)
      a10
  obtain ⟨e8, e10, e11⟩ :=
    three_bits _ _ _ _ _ _ (hb 8) (hb 10) (hb 11) (hc 8) (hc 10) (hc 11) a11
  obtain ⟨e32, e36, e38, e39⟩ :=
    four_bits _ _ _ _ _ _ _ _ (hb 32) (hb 36) (hb 38) (hb 39) (hc 32) (hc 36) (hc 38) (hc 39)
      a12
  intro k hk
  interval_cases k <;> assumption

theorem decode_alarm_congr (b c : Nat → Nat) (alarm : alm) (h : ∀ k, k < 40 → b k = c k) :
    decode_alarm b alarm = decode_alarm c alarm := by
  rw [alm_eq_iff]
  simp only [decode_alarm_region_zero, decode_alarm_region_one, decode_alarm_parity_zero,
    decode_alarm_parity_one]
  rw [h 0 (by decide), h 1 (by decide), h 2 (by decide), h 3 (by decide), h 4 (by decide),
    h 5 (by decide), h 6 (by decide), h 7 (by decide), h 8 (by decide), h 9 (by decide),
    h 10 (by decide), h 11 (by decide), h 12 (by decide), h 13 (by decide), h 14 (by decide),
    h 15 (by decide), h 16 (by decide), h 17 (by decide), h 18 (by decide), h 19 (by decide),
    h 20 (by decide), h 21 (by decide), h 22 (by decide), h 23 (by decide), h 24 (by decide),
    h 25 (by decide), h 26 (by decide), h 27 (by decide), h 28 (by decide), h 29 (by decide),
    h 30 (by decide), h 31 (by decide), h 32 (by decide), h 33 (by decide), h 34 (by decide),
    h 35 (by decide), h 36 (by decide), h 37 (by decide), h 38 (by decide), h 39 (by decide)]
  exact ⟨rfl, rfl, rfl, rfl⟩

/-- Claim C17. Bit coverage of `decode_alarm`: the 40 reads of the two halves hit each
index of 0..39 exactly once and no index from 40 on; each code is the weighted sum
over its own read indices; hence two buffers of 0/1 entries decode to the same record
if and only if they agree on the indices 0..39, whatever they hold from index 40 on. -/
theorem decode_alarm_bit_coverage (b c : Nat → Nat) (alarm : alm) (hb : ∀ k, b k ≤ 1)
    (hc : ∀ k, c k ≤ 1) :
    decode_alarm_reads.length = 40 ∧ decode_alarm_reads.Nodup ∧
      (∀ k, k ∈ decode_alarm_reads ↔ k < 40) ∧
      (∀ i : Fin 2,
        ((decode_alarm b alarm).region i).r1 = u32 (weighted b (r1_reads i)) ∧
        ((decode_alarm b alarm).region i).r2 = u32 (weighted b (r2_reads i)) ∧
        ((decode_alarm b alarm).region i).r3 = u32 (weighted b (r3_reads i)) ∧
        ((decode_alarm b alarm).region i).r4 = u32 (weighted b (r4_reads i)) ∧
        ((decode_alarm b alarm).parity i).ps = u32 (weighted b (ps_reads i)) ∧
        ((decode_alarm b alarm).parity i).pl = u32 (weighted b (pl_reads i))) ∧
      (decode_alarm b alarm = decode_alarm c alarm ↔ ∀ k, k < 40 → b k = c k) :=
  ⟨by decide, by decide, decode_alarm_reads_mem, decode_alarm_weighted b alarm,
    decode_alarm_agree b c alarm hb hc, decode_alarm_congr b c alarm⟩

/-- Witness for C17: two sample buffers of 0/1 entries that differ only at index 47
decode to the same record. -/
theorem decode_alarm_bit_coverage_witness :
    (∀ k, demo_buf k ≤ 1) ∧ (∀ k, demo_buf_tail k ≤ 1) ∧ demo_buf 47 ≠ demo_buf_tail 47 ∧
      decode_alarm demo_buf demo_alarm = decode_alarm demo_buf_tail demo_alarm :=
  have hb : ∀ k, demo_buf k ≤ 1 := fun k => by unfold demo_buf; split <;> omega
  have hc : ∀ k, demo_buf_tail k ≤ 1 := fun k => by
    unfold demo_buf_tail; split
    · omega
    · exact hb k
  have hagree : ∀ k, k < 40 → demo_buf k = demo_buf_tail k := fun k hk => by
    have hne : k ≠ 47 := by omega
    simp [demo_buf_tail, hne]
  ⟨hb, hc, by decide,
    (decode_alarm_bit_coverage demo_buf demo_buf_tail demo_alarm hb hc).2.2.2.2.2 hagree⟩

theorem any_date_parity_iff (dt : DT_result) :
    any_date_parity dt ↔ (dt.mday_status = eDT_value.eval_parity ∨
      dt.wday_status = eDT_value.eval_parity ∨ dt.month_status = eDT_value.eval_parity ∨
      dt.year_status = eDT_value.eval_parity) := by
  simp only [any_date_parity, List.mem_cons, List.mem_singleton, List.not_mem_nil, or_false]
  constructor
  · rintro ⟨s, hs, rfl⟩; exact hs.imp Eq.symm (Or.imp Eq.symm (Or.imp Eq.symm Eq.symm))
  · intro h
    exact ⟨_, h.imp Eq.symm (Or.imp Eq.symm (Or.imp Eq.symm Eq.symm)), rfl⟩

theorem any_date_bcd_iff (dt : DT_result) :
    any_date_bcd dt ↔ (dt.mday_status = eDT_value.eval_bcd ∨
      dt.wday_status = eDT_value.eval_bcd ∨ dt.month_status = eDT_value.eval_bcd ∨
      dt.year_status = eDT_value.eval_bcd) := by
  simp only [any_date_bcd, List.mem_cons, List.mem_singleton, List.not_mem_nil, or_false]
  constructor
  · rintro ⟨s, hs, rfl⟩; exact hs.imp Eq.symm (Or.imp Eq.symm (Or.imp Eq.symm Eq.symm))
  · intro h
    exact ⟨_, h.imp Eq.symm (Or.imp Eq.symm (Or.imp Eq.symm Eq.symm)), rfl⟩

theorem snd_ite_flag_error (c : Prop) [Decidable c] (st : Bool × String) (tag : String) :
    (if c then flag_error st tag else st).2 = st.2 ++ (if c then tag else "") := by
  split <;> simp [flag_error, strcat]

theorem snd_ite_ite_flag_error (c d : Prop) [Decidable c] [Decidable d] (st : Bool × String)
    (tag tag2 : String) :
    (if c then flag_error st tag else if d then flag_error st tag2 else st).2 =
      st.2 ++ (if c then tag else if d then tag2 else "") := by
  split
  · simp [flag_error, strcat]
  · split <;> simp [flag_error, strcat]

theorem error_msg_pieces (dt : DT_result) :
    error_msg dt =
      "" ++ (if dt.minute_length ≠ eDT_length.emin_ok then "minute_length_error " else "") ++
      (if dt.bit0_ok = false then "bit0_error " else "") ++
      (if dt.bit20_ok = false then "bit20_error " else "") ++
      (if dt.dst_status = eDT_DST.eDST_error then "dst_error " else "") ++
      (if dt.minute_status = eDT_value.eval_parity then "minute_parity_error "
        else if dt.minute_status = eDT_value.eval_bcd then "minute_bcd_error " else "") ++
      (if dt.hour_status = eDT_value.eval_parity then "hour_parity_error "
        else if dt.hour_status = eDT_value.eval_bcd then "hour_bcd_error " else "") ++
      (if any_date_parity dt then "date_parity_error " else "") ++
      (if any_date_bcd dt then "date_bcd_error " else "") := by
  have hp := any_date_parity_iff dt
  have hb := any_date_bcd_iff dt
  simp only [error_msg, display_time_check, snd_ite_flag_error, snd_ite_ite_flag_error, hp, hb,
    Bool.not_eq_true']

theorem tag_text_append (a b : List String) : tag_text (a ++ b) = tag_text a ++ tag_text b := by
  simp [tag_text]

theorem piece_data (c : Prop) [Decidable c] (s t : String) (h : s.data = t.data ++ [' ']) :
    (if c then s else "").data = tag_text (if c then [t] else []) := by
  split
  · simp [tag_text, h]
  · rfl

theorem piece_data_two (c d : Prop) [Decidable c] [Decidable d] (s t s2 t2 : String)
    (h : s.data = t.data ++ [' ']) (h2 : s2.data = t2.data ++ [' ']) :
    (if c then s else if d then s2 else "").data =
      tag_text (if c then [t] else if d then [t2] else []) := by
  split
  · simp [tag_text, h]
  · split
    · simp [tag_text, h2]
    · rfl

theorem error_msg_data (dt : DT_result) : (error_msg dt).data = tag_text (tag_list dt) := by
  rw [error_msg_pieces]
  simp only [String.data_append, tag_list, tag_text_append]
  rw [piece_data (dt.minute_length ≠ eDT_length.emin_ok) "minute_length_error "
      "minute_length_error" rfl,
    piece_data (dt.bit0_ok = false) "bit0_error " "bit0_error" rfl,
    piece_data (dt.bit20_ok = false) "bit20_error " "bit20_error" rfl,
    piece_data (dt.dst_status = eDT_DST.eDST_error) "dst_error " "dst_error" rfl,
    piece_data_two (dt.minute_status = eDT_value.eval_parity)
      (dt.minute_status = eDT_value.eval_bcd) "minute_parity_error " "minute_parity_error"
      "minute_bcd_error " "minute_bcd_error" rfl rfl,
    piece_data_two (dt.hour_status = eDT_value.eval_parity)
      (dt.hour_status = eDT_value.eval_bcd) "hour_parity_error " "hour_parity_error"
      "hour_bcd_error " "hour_bcd_error" rfl rfl,
    piece_data (any_date_parity dt) "date_parity_error " "date_parity_error" rfl,
    piece_data (any_date_bcd dt) "date_bcd_error " "date_bcd_error" rfl]
  rfl

theorem split_tags_word (t cur rest : List Char) (ht : ' ' ∉ t) :
    split_tags cur (t ++ ' ' :: rest) = (cur ++ t) :: split_tags [] rest := by
  induction t generalizing cur with
  | nil => simp [split_tags]
  | cons c cs ih =>
    have hc : c ≠ ' ' := fun h => ht (by simp [h])
    have hcs : ' ' ∉ cs := fun h => ht (by simp [h])
    have e : split_tags cur ((c :: cs) ++ ' ' :: rest) =
        split_tags (cur ++ [c]) (cs ++ ' ' :: rest) := by
      simp [split_tags, hc]
    rw [e, ih _ hcs]
    simp

theorem split_tags_tag_text (l : List String) (hl : ∀ t ∈ l, ' ' ∉ t.data) :
    split_tags [] (tag_text l) = l.map String.data := by
  induction l with
  | nil => rfl
  | cons t ts ih =>
    have ht : ' ' ∉ t.data := hl t (by simp)
    have hts : ∀ u ∈ ts, ' ' ∉ u.data := fun u hu => hl u (by simp [hu])
    have e : tag_text (t :: ts) = t.data ++ ' ' :: tag_text ts := by
      simp [tag_text]
    rw [e, split_tags_word _ _ _ ht, ih hts]
    simp

theorem tag_list_subset (dt : DT_result) : ∀ t ∈ tag_list dt, t ∈ all_tags := by
  intro t ht
  simp only [tag_list, List.mem_append] at ht
  rcases ht with ((((((h | h) | h) | h) | h) | h) | h) | h <;>
    (split_ifs at h <;> simp at h <;> subst h <;> decide)

theorem tag_set_eq (dt : DT_result) : tag_set dt = tag_list dt := by
  have hl : ∀ t ∈ tag_list dt, ' ' ∉ t.data := by
    intro t ht
    have hall : ∀ u ∈ all_tags, ' ' ∉ u.data := by decide
    exact hall t (tag_list_subset dt t ht)
  unfold tag_set tags_of
  rw [error_msg_data, split_tags_tag_text _ hl, List.map_map]
  have : (String.mk ∘ String.data) = id := by
    funext s; rfl
  rw [this, List.map_id]

theorem mem_tag_list_date_parity (dt : DT_result) :
    "date_parity_error" ∈ tag_list dt ↔ any_date_parity dt := by
  unfold tag_list
  by_cases h : any_date_parity dt
  · simp [h]
  · simp only [h, if_false, List.append_nil, iff_false, List.mem_append, not_or]
    refine ⟨⟨⟨⟨⟨⟨?_, ?_⟩, ?_⟩, ?_⟩, ?_⟩, ?_⟩, ?_⟩ <;> (split_ifs <;> decide)

theorem mem_tag_list_date_bcd (dt : DT_result) :
    "date_bcd_error" ∈ tag_list dt ↔ any_date_bcd dt := by
  unfold tag_list
  by_cases h : any_date_bcd dt
  · simp [h]
  · simp only [h, if_false, List.append_nil, iff_false, List.mem_append, not_or]
    refine ⟨⟨⟨⟨⟨⟨?_, ?_⟩, ?_⟩, ?_⟩, ?_⟩, ?_⟩, ?_⟩ <;> (split_ifs <;> decide)

theorem any_date_parity_set (dt : DT_result) (f : Fin 4 → eDT_value) :
    any_date_parity (set_date_statuses dt f) ↔ ∃ i, f i = eDT_value.eval_parity := by
  rw [any_date_parity_iff]
  simp only [set_date_statuses]
  constructor
  · rintro (h | h | h | h)
    · exact ⟨0, h⟩
    · exact ⟨1, h⟩
    · exact ⟨2, h⟩
    · exact ⟨3, h⟩
  · rintro ⟨i, h⟩
    fin_cases i
    · exact Or.inl h
    · exact Or.inr (Or.inl h)
    · exact Or.inr (Or.inr (Or.inl h))
    · exact Or.inr (Or.inr (Or.inr h))

theorem any_date_bcd_set (dt : DT_result) (f : Fin 4 → eDT_value) :
    any_date_bcd (set_date_statuses dt f) ↔ ∃ i, f i = eDT_value.eval_bcd := by
  rw [any_date_bcd_iff]
  simp only [set_date_statuses]
  constructor
  · rintro (h | h | h | h)
    · exact ⟨0, h⟩
    · exact ⟨1, h⟩
    · exact ⟨2, h⟩
    · exact ⟨3, h⟩
  · rintro ⟨i, h⟩
    fin_cases i
    · exact Or.inl h
    · exact Or.inr (Or.inl h)
    · exact Or.inr (Or.inr (Or.inl h))
    · exact Or.inr (Or.inr (Or.inr h))

theorem set_date_statuses_self (dt : DT_result) : set_date_statuses dt (date_statuses dt) = dt :=
  rfl

theorem display_time_check_dates (dt : DT_result) (f : Fin 4 → eDT_value)
    (hp : any_date_parity (set_date_statuses dt f) ↔ any_date_parity dt)
    (hb : any_date_bcd (set_date_statuses dt f) ↔ any_date_bcd dt) :
    display_time_check (set_date_statuses dt f) = display_time_check dt := by
  rw [any_date_parity_iff, any_date_parity_iff] at hp
  rw [any_date_bcd_iff, any_date_bcd_iff] at hb
  simp only [set_date_statuses] at hp hb
  simp only [display_time_check, set_date_statuses, hp, hb]

/-- Claim C16. Date-field aggregation in `display_time`: the tag `date_parity_error` is
in the tag set exactly when at least one of the four date-related statuses is a parity
error, `date_bcd_error` exactly when at least one is a BCD error, and both can be
present together; replacing the four statuses by any four that preserve these two facts
changes neither the error flag nor the message, hence not the tag set; in particular
every permutation of the four statuses among the four fields leaves them unchanged. -/
theorem display_time_date_aggregation (dt : DT_result) :
    ("date_parity_error" ∈ tag_set dt ↔ any_date_parity dt) ∧
    ("date_bcd_error" ∈ tag_set dt ↔ any_date_bcd dt) ∧
    ("date_parity_error" ∈ tag_set demo_dt_broken ∧
      "date_bcd_error" ∈ tag_set demo_dt_broken) ∧
    (∀ f : Fin 4 → eDT_value,
      (any_date_parity (set_date_statuses dt f) ↔ any_date_parity dt) →
      (any_date_bcd (set_date_statuses dt f) ↔ any_date_bcd dt) →
      display_time_check (set_date_statuses dt f) = display_time_check dt ∧
        tag_set (set_date_statuses dt f) = tag_set dt ∧
        has_error (set_date_statuses dt f) = has_error dt) ∧
    (∀ σ : Equiv.Perm (Fin 4),
      display_time_check (set_date_statuses dt (date_statuses dt ∘ σ)) =
          display_time_check dt ∧
        tag_set (set_date_statuses dt (date_statuses dt ∘ σ)) = tag_set dt ∧
        has_error (set_date_statuses dt (date_statuses dt ∘ σ)) = has_error dt) := by
  have key : ∀ f : Fin 4 → eDT_value,
      (any_date_parity (set_date_statuses dt f) ↔ any_date_parity dt) →
      (any_date_bcd (set_date_statuses dt f) ↔ any_date_bcd dt) →
      display_time_check (set_date_statuses dt f) = display_time_check dt ∧
        tag_set (set_date_statuses dt f) = tag_set dt ∧
        has_error (set_date_statuses dt f) = has_error dt := by
    intro f hp hb
    have e := display_time_check_dates dt f hp hb
    refine ⟨e, ?_, ?_⟩
    · unfold tag_set error_msg; rw [e]
    · unfold has_error; rw [e]
  refine ⟨?_, ?_, ⟨?_, ?_⟩, key, ?_⟩
  · rw [tag_set_eq]; exact mem_tag_list_date_parity dt
  · rw [tag_set_eq]; exact mem_tag_list_date_bcd dt
  · rw [tag_set_eq]; decide
  · rw [tag_set_eq]; decide
  · intro σ
    apply key
    · rw [any_date_parity_set]
      conv_rhs => rw [← set_date_statuses_self dt, any_date_parity_set]
      constructor
      · rintro ⟨i, h⟩; exact ⟨σ i, h⟩
      · rintro ⟨i, h⟩; exact ⟨σ.symm i, by simpa using h⟩
    · rw [any_date_bcd_set]
      conv_rhs => rw [← set_date_statuses_self dt, any_date_bcd_set]
      constructor
      · rintro ⟨i, h⟩; exact ⟨σ i, h⟩
      · rintro ⟨i, h⟩; exact ⟨σ.symm i, by simpa using h⟩

theorem tag_list_sublist (dt : DT_result) : List.Sublist (tag_list dt) all_tags := by
  have e : all_tags = ["minute_length_error"] ++ ["bit0_error"] ++ ["bit20_error"] ++
      ["dst_error"] ++ ["minute_parity_error", "minute_bcd_error"] ++
      ["hour_parity_error", "hour_bcd_error"] ++ ["date_parity_error"] ++
      ["date_bcd_error"] := rfl
  rw [e]
  unfold tag_list
  refine List.Sublist.append (List.Sublist.append (List.Sublist.append (List.Sublist.append
    (List.Sublist.append (List.Sublist.append (List.Sublist.append ?_ ?_) ?_) ?_) ?_) ?_) ?_) ?_
    <;> (split_ifs <;> simp)

theorem mem_tag_list_minute (dt : DT_result) :
    ("minute_parity_error" ∈ tag_list dt → dt.minute_status = eDT_value.eval_parity) ∧
      ("minute_bcd_error" ∈ tag_list dt → dt.minute_status = eDT_value.eval_bcd) := by
  unfold tag_list
  constructor <;> intro h <;> simp only [List.mem_append] at h <;>
    rcases h with ((((((h | h) | h) | h) | h) | h) | h) | h <;>
    split_ifs at h <;> simp_all

theorem mem_tag_list_hour (dt : DT_result) :
    ("hour_parity_error" ∈ tag_list dt → dt.hour_status = eDT_value.eval_parity) ∧
      ("hour_bcd_error" ∈ tag_list dt → dt.hour_status = eDT_value.eval_bcd) := by
  unfold tag_list
  constructor <;> intro h <;> simp only [List.mem_append] at h <;>
    rcases h with ((((((h | h) | h) | h) | h) | h) | h) | h <;>
    split_ifs at h <;> simp_all

theorem piece_length (c : Prop) [Decidable c] (s : String) :
    (if c then s else "").length ≤ s.length := by
  split
  · exact Nat.le_refl _
  · exact Nat.zero_le _

theorem piece_length_two (c d : Prop) [Decidable c] [Decidable d] (s s2 : String)
    (h : s2.length ≤ s.length) :
    (if c then s else if d then s2 else "").length ≤ s.length := by
  split
  · exact Nat.le_refl _
  · split
    · exact h
    · exact Nat.zero_le _

theorem error_msg_length (dt : DT_result) : (error_msg dt).length ≤ 124 := by
  rw [error_msg_pieces]
  simp only [String.length_append]
  have h1 := piece_length (dt.minute_length ≠ eDT_length.emin_ok) "minute_length_error "
  have h2 := piece_length (dt.bit0_ok = false) "bit0_error "
  have h3 := piece_length (dt.bit20_ok = false) "bit20_error "
  have h4 := piece_length (dt.dst_status = eDT_DST.eDST_error) "dst_error "
  have h5 := piece_length_two (dt.minute_status = eDT_value.eval_parity)
    (dt.minute_status = eDT_value.eval_bcd) "minute_parity_error " "minute_bcd_error "
    (by decide)
  have h6 := piece_length_two (dt.hour_status = eDT_value.eval_parity)
    (dt.hour_status = eDT_value.eval_bcd) "hour_parity_error " "hour_bcd_error " (by decide)
  have h7 := piece_length (any_date_parity dt) "date_parity_error "
  have h8 := piece_length (any_date_bcd dt) "date_bcd_error "
  have l0 : "".length = 0 := rfl
  have l1 : "minute_length_error ".length = 20 := by decide
  have l2 : "bit0_error ".length = 11 := by decide
  have l3 : "bit20_error ".length = 12 := by decide
  have l4 : "dst_error ".length = 10 := by decide
  have l5 : "minute_parity_error ".length = 20 := by decide
  have l6 : "hour_parity_error ".length = 18 := by decide
  have l7 : "date_parity_error ".length = 18 := by decide
  have l8 : "date_bcd_error ".length = 15 := by decide
  omega

/-- Claim C18. Bounded diagnostic message in `display_time`: the tag string holds each tag
at most once, never both `minute_parity_error` and `minute_bcd_error`, never both
`hour_parity_error` and `hour_bcd_error`, and is at most 124 characters long (a length
the sample record with every check failing reaches), so that with its terminator it
fits the 512-byte buffer `error_msg`. -/
theorem display_time_error_msg_bounded (dt : DT_result) :
    (tag_set dt).Nodup ∧
    ¬ ("minute_parity_error" ∈ tag_set dt ∧ "minute_bcd_error" ∈ tag_set dt) ∧
    ¬ ("hour_parity_error" ∈ tag_set dt ∧ "hour_bcd_error" ∈ tag_set dt) ∧
    (error_msg dt).length ≤ 124 ∧
    (error_msg dt).length + 1 ≤ 512 ∧
    (error_msg demo_dt_broken).length = 124 := by
  have hl := error_msg_length dt
  have hmax : (error_msg demo_dt_broken).length = 124 := by
    rw [error_msg_pieces]
    simp only [String.length_append]
    rfl
  refine ⟨?_, ?_, ?_, hl, by omega, hmax⟩
  · rw [tag_set_eq]
    exact List.Sublist.nodup (tag_list_sublist dt) (by decide)
  · rw [tag_set_eq]
    rintro ⟨h1, h2⟩
    have e1 := (mem_tag_list_minute dt).1 h1
    have e2 := (mem_tag_list_minute dt).2 h2
    rw [e1] at e2
    exact absurd e2 (by decide)
  · rw [tag_set_eq]
    rintro ⟨h1, h2⟩
    have e1 := (mem_tag_list_hour dt).1 h1
    have e2 := (mem_tag_list_hour dt).2 h2
    rw [e1] at e2
    exact absurd e2 (by decide)

end Dcf77
